import Mathlib

/-!
Snake: the simulation kernel of `main.go`.

A shallow embedding of the game state and of the functions `NewSnake`,
`Snake.Move`, `NewFood`, `Game.Update` and `Game.restart` of `main.go`,
followed by theorems about them.

Modelling conventions.

* Go `int` is modelled by `Int`.  In the states the program can reach the
  integer fields stay small (head coordinates in `[-1, 64]`, `speed` in
  `[2, 10]`, `updateCounter` below `speed`), so wrap-around of machine
  integers is never exercised.
* The pointers `g.snake` and `g.food` are never nil (`main` and `restart`
  always store freshly allocated values), so they are modelled by values.
* A run-time panic (indexing `s.Body[0]` of an empty slice) is the result
  `none`.
* The process-global random source of `math/rand` is an explicit value `Rng`
  that is threaded through every function that draws from it.
* The two host queries `ebiten.IsKeyPressed` (four arrows) and
  `inpututil.IsKeyJustPressed(ebiten.KeyR)` are the fields of `Input`, one
  value per call of `Update`.
-/

namespace SnakeGame

/-! ## Constants (main.go 17-21) -/

def screenWidth : Int := 320
def screenHeight : Int := 240
def tileSize : Int := 5

/-! ## Data model (main.go 39-48, 73-75, 86-94) -/

structure Point where
  X : Int
  Y : Int
deriving DecidableEq, Repr

structure Snake where
  Body : List Point
  Direction : Point
  GrowCounter : Int
deriving DecidableEq, Repr

structure Food where
  Position : Point
deriving DecidableEq, Repr

structure Game where
  snake : Snake
  food : Food
  score : Int
  gameOver : Bool
  ticks : Int
  updateCounter : Int
  speed : Int
deriving DecidableEq, Repr

/-- The random source: `draws k n` is what the `k`-th call of `rand.Intn`
since program start returns when it is asked for a number below `n`, and
`calls` counts the calls made so far.  Nothing is assumed about the values. -/
structure Rng where
  draws : Nat → Int → Int
  calls : Nat

/-- One call `rand.Intn(n)`: the drawn value and the advanced source.  (The
program only calls it with the positive constants 64 and 48, for which
`rand.Intn` does not panic.) -/
def Rng.Intn (r : Rng) (n : Int) : Int × Rng :=
  (r.draws r.calls n, { r with calls := r.calls + 1 })

/-- What the host reports during one call of `Update`. -/
structure Input where
  left : Bool
  right : Bool
  up : Bool
  down : Bool
  keyR : Bool
deriving DecidableEq, Repr

/-! ## The snake (main.go 50-71) -/

/-- `NewSnake` (main.go 50-57); `GrowCounter` takes Go's zero value. -/
def NewSnake : Snake :=
  { Body := [{ X := Int.tdiv (Int.tdiv screenWidth tileSize) 2,
               Y := Int.tdiv (Int.tdiv screenHeight tileSize) 2 }],
    Direction := { X := 1, Y := 0 },
    GrowCounter := 0 }

/-- `Snake.Move` (main.go 59-71).  `s.Body[0]` panics on an empty body. -/
def Snake.Move (s : Snake) : Option Snake :=
  match s.Body with
  | [] => none
  | b0 :: _ =>
    let newHead : Point := { X := b0.X + s.Direction.X, Y := b0.Y + s.Direction.Y }
    let s1 : Snake := { s with Body := [newHead] ++ s.Body }
    if s1.GrowCounter > 0 then
      some { s1 with GrowCounter := s1.GrowCounter - 1 }
    else
      some { s1 with Body := s1.Body.take (s1.Body.length - 1) }

/-! ## The food (main.go 77-84) -/

/-- `NewFood` (main.go 77-84): `X` is drawn first, then `Y`. -/
def NewFood (r : Rng) : Food × Rng :=
  let (x, r1) := r.Intn (Int.tdiv screenWidth tileSize)
  let (y, r2) := r1.Intn (Int.tdiv screenHeight tileSize)
  ({ Position := { X := x, Y := y } }, r2)

/-! ## The game (main.go 23-31, 100-155, 183-189) -/

/-- The `Game` value that `main` builds before it hands control to the host
loop (main.go 23-31): `NewSnake()` is evaluated before `NewFood()`, and
`score` and `updateCounter` take Go's zero value. -/
def main (r : Rng) : Game × Rng :=
  let s := NewSnake
  let (f, r1) := NewFood r
  ({ snake := s, food := f, score := 0, gameOver := false, ticks := 0,
     updateCounter := 0, speed := 10 }, r1)

/-- `Game.restart` (main.go 183-189). -/
def restart (g : Game) (r : Rng) : Game × Rng :=
  let g1 : Game := { g with snake := NewSnake }
  let g2 : Game := { g1 with score := 0 }
  let g3 : Game := { g2 with gameOver := false }
  let (f, r1) := NewFood r
  let g4 : Game := { g3 with food := f }
  ({ g4 with speed := 10 }, r1)

/-- The direction chosen by the `if / else if` chain on the held arrow keys
(main.go 117-125), applied to the current direction `d`. -/
def latch (inp : Input) (d : Point) : Point :=
  if inp.left = true ∧ d.X = 0 then { X := -1, Y := 0 }
  else if inp.right = true ∧ d.X = 0 then { X := 1, Y := 0 }
  else if inp.up = true ∧ d.Y = 0 then { X := 0, Y := -1 }
  else if inp.down = true ∧ d.Y = 0 then { X := 0, Y := 1 }
  else d

/-- The wall test on the head (main.go 128). -/
def offGrid (head : Point) : Prop :=
  head.X < 0 ∨ head.Y < 0 ∨ head.X ≥ Int.tdiv screenWidth tileSize
    ∨ head.Y ≥ Int.tdiv screenHeight tileSize

instance (head : Point) : Decidable (offGrid head) := by
  unfold offGrid; infer_instance

/-- One iteration of the loop over `g.snake.Body[1:]` (main.go 134-137). -/
def hitPart (head : Point) (g : Game) (part : Point) : Game :=
  if head.X = part.X ∧ head.Y = part.Y then
    { g with gameOver := true, speed := 10 }
  else g

/-- The block executed when the head is on the food (main.go 141-151), one
line of the model per statement of the source. -/
def eat (g : Game) (r : Rng) : Game × Rng :=
  let g1 : Game := { g with score := g.score + 1 }
  let g2 : Game := { g1 with snake := { g1.snake with GrowCounter := g1.snake.GrowCounter + 1 } }
  let (f1, r1) := NewFood r
  let g3 : Game := { g2 with food := f1 }
  let g4 : Game := { g3 with score := g3.score + 1 }
  let (f2, r2) := NewFood r1
  let g5 : Game := { g4 with food := f2 }
  let g6 : Game := { g5 with snake := { g5.snake with GrowCounter := 1 } }
  if g6.speed > 2 then ({ g6 with speed := g6.speed - 1 }, r2) else (g6, r2)

/-- The simulation step: the part of `Update` after the cadence gate
(main.go 114-154). -/
def simStep (inp : Input) (g : Game) (r : Rng) : Option (Game × Rng) :=
  match g.snake.Move with
  | none => none
  | some s =>
    let g1 : Game := { g with snake := { s with Direction := latch inp s.Direction } }
    match g1.snake.Body with
    | [] => none
    | head :: rest =>
      let g2 : Game :=
        if offGrid head then { g1 with gameOver := true, speed := 10 } else g1
      let g3 : Game := rest.foldl (hitPart head) g2
      if head.X = g3.food.Position.X ∧ head.Y = g3.food.Position.Y then
        some (eat g3 r)
      else
        some (g3, r)

/-- `Game.Update` (main.go 100-155). -/
def Update (inp : Input) (g : Game) (r : Rng) : Option (Game × Rng) :=
  if g.gameOver = true then
    if inp.keyR = true then some (restart g r) else some (g, r)
  else
    let g1 : Game := { g with updateCounter := g.updateCounter + 1 }
    if g1.updateCounter < g1.speed then some (g1, r)
    else simStep inp { g1 with updateCounter := 0 } r

/-- Consecutive calls of `Update`, one per element of `inps`, the way the
host loop issues them; a panic ends the run. -/
def runUpdates : List Input → Game → Rng → Option (Game × Rng)
  | [], g, r => some (g, r)
  | inp :: rest, g, r =>
    match Update inp g r with
    | none => none
    | some (g1, r1) => runUpdates rest g1 r1

/-- The states the program can be in between two frames: the state built by
`main`, for any random source, and every state `Update` produces from such a
state, for any input. -/
inductive Reachable : Game → Rng → Prop
  | start (r : Rng) : Reachable (main r).1 (main r).2
  | frame (inp : Input) (g : Game) (r : Rng) (g1 : Game) (r1 : Rng) :
      Reachable g r → Update inp g r = some (g1, r1) → Reachable g1 r1

/-- Proof-side summary of main.go 117-138: the game after the moved snake `s`
(with body `head :: rest`) has been stored, the direction latched and both
collision tests run. -/
def afterCollisions (inp : Input) (g : Game) (s : Snake) (head : Point)
    (rest : List Point) : Game :=
  if offGrid head ∨ head ∈ rest then
    { g with snake := { s with Direction := latch inp s.Direction },
             gameOver := true, speed := 10 }
  else
    { g with snake := { s with Direction := latch inp s.Direction } }

/-- Proof-side summary of main.go 141-151: the net effect of the block `eat`. -/
def afterEat (g : Game) (r : Rng) : Game × Rng :=
  ({ g with snake := { g.snake with GrowCounter := 1 },
            food := (NewFood (NewFood r).2).1,
            score := g.score + 2,
            speed := if g.speed > 2 then g.speed - 1 else g.speed },
   (NewFood (NewFood r).2).2)

/-! ## Concrete inputs and states used as examples -/

/-- No key held, `R` not pressed. -/
def noKeys : Input :=
  { left := false, right := false, up := false, down := false, keyR := false }

/-- All four arrows held, `R` not pressed. -/
def allArrows : Input :=
  { left := true, right := true, up := true, down := true, keyR := false }

/-- Only `R`, just pressed. -/
def pressR : Input :=
  { left := false, right := false, up := false, down := false, keyR := true }

/-- A random source whose every draw is 0. -/
def zeroRng : Rng := { draws := fun _ _ => 0, calls := 0 }

/-- A running game with a one-cell snake at (63,24) heading right, due for a
simulation step on the next frame. -/
def atTheWall : Game :=
  { snake := { Body := [{ X := 63, Y := 24 }], Direction := { X := 1, Y := 0 },
               GrowCounter := 0 },
    food := { Position := { X := 5, Y := 5 } },
    score := 0, gameOver := false, ticks := 0, updateCounter := 9, speed := 10 }

/-- A finished game: a five-cell snake that has bitten itself. -/
def finishedGame : Game :=
  { snake := { Body := [{ X := 36, Y := 24 }, { X := 36, Y := 25 }, { X := 37, Y := 25 },
                        { X := 37, Y := 24 }, { X := 36, Y := 24 }],
               Direction := { X := 0, Y := -1 }, GrowCounter := 1 },
    food := { Position := { X := 36, Y := 24 } },
    score := 10, gameOver := true, ticks := 0, updateCounter := 0, speed := 9 }

/-- A game state whose frame counter is 5. -/
def staleCounter : Game :=
  { finishedGame with updateCounter := 5 }

/-- A random source that puts every food on the row `Y = 24`: the first food
at `X = 33`, the food of the first meal at 34, of the second at 35, and every
later one at 36.  (Each meal draws four numbers, the last two of which give the
food that stays.) -/
def foodOnPath : Rng :=
  { draws := fun k n =>
      if n = 48 then 24
      else if k < 2 then 33 else if k < 6 then 34 else if k < 10 then 35 else 36,
    calls := 0 }

/-- Only the Down arrow held. -/
def holdDown : Input := { noKeys with down := true }

/-- Only the Left arrow held. -/
def holdLeft : Input := { noKeys with left := true }

/-- Only the Up arrow held. -/
def holdUp : Input := { noKeys with up := true }

/-- The frames of a game in which the snake eats on each of its first four
steps, then turns down, left and up (58 frames, seven simulation steps and five
frames of waiting): the next frame moves the head up into its own body. -/
def loopFrames : List Input :=
  List.replicate 10 noKeys ++ List.replicate 9 noKeys ++ List.replicate 8 noKeys ++
    List.replicate 7 noKeys ++ (List.replicate 5 noKeys ++ [holdDown]) ++
    (List.replicate 5 noKeys ++ [holdLeft]) ++ (List.replicate 5 noKeys ++ [holdUp]) ++
    List.replicate 5 noKeys

/-- A running game with a two-cell snake heading right from (10,7), due for a
simulation step on the next frame. -/
def twoCells : Game :=
  { snake := { Body := [{ X := 10, Y := 7 }, { X := 9, Y := 7 }],
               Direction := { X := 1, Y := 0 }, GrowCounter := 0 },
    food := { Position := { X := 40, Y := 40 } },
    score := 2, gameOver := false, ticks := 0, updateCounter := 8, speed := 9 }

/-! ## The rules in the words of the specification -/

/-- The direction rule as the specification words it: the arrows in the order
Left, Right, Up, Down, each with its direction and with whether it is
perpendicular to the heading `d` (Left and Right need `d.X = 0`, Up and Down
need `d.Y = 0`); the first arrow that is both held and perpendicular gives the
new direction, and when there is none the direction stays `d`. -/
def firstAccepted (inp : Input) (d : Point) : Point :=
  match ([(inp.left, decide (d.X = 0), ({ X := -1, Y := 0 } : Point)),
          (inp.right, decide (d.X = 0), { X := 1, Y := 0 }),
          (inp.up, decide (d.Y = 0), { X := 0, Y := -1 }),
          (inp.down, decide (d.Y = 0), { X := 0, Y := 1 })].find?
            (fun k => k.1 && k.2.1)) with
  | some k => k.2.2
  | none => d

/-- Whether the frame that starts in `g` is a simulation step that consumes
the food: the game is running, the frame is due, and the moved head is on the
food. -/
def isMeal (g : Game) : Bool :=
  !g.gameOver && !decide (g.updateCounter + 1 < g.speed) &&
    (match g.snake.Move with
     | some s => s.Body.head? == some g.food.Position
     | none => false)

/-- Whether the frame that starts in `g` with input `inp` is a restart. -/
def isRestart (inp : Input) (g : Game) : Bool :=
  g.gameOver && inp.keyR

/-- The number of frames of a run that consume the food. -/
def countMeals : List Input → Game → Rng → Nat
  | [], _, _ => 0
  | inp :: rest, g, r =>
    match Update inp g r with
    | none => 0
    | some (g1, r1) => (if isMeal g = true then 1 else 0) + countMeals rest g1 r1

/-- The number of frames of a run that are restarts. -/
def countRestarts : List Input → Game → Rng → Nat
  | [], _, _ => 0
  | inp :: rest, g, r =>
    match Update inp g r with
    | none => 0
    | some (g1, r1) => (if isRestart inp g = true then 1 else 0) + countRestarts rest g1 r1

/-- The assumption on the random source under which `rand.Intn(n)` is used:
every draw for a positive bound `n` lies in `[0, n)`. -/
def drawsInRange (r : Rng) : Prop :=
  ∀ (k : Nat) (n : Int), 0 < n → 0 ≤ r.draws k n ∧ r.draws k n < n

/-- The Left and Up arrows held together. -/
def leftAndUp : Input := { noKeys with left := true, up := true }

/-- A running game, due for a simulation step, whose food lies right in front
of the head of a three-cell snake. -/
def beforeMeal : Game :=
  { snake := { Body := [{ X := 10, Y := 7 }, { X := 9, Y := 7 }, { X := 8, Y := 7 }],
               Direction := { X := 1, Y := 0 }, GrowCounter := 0 },
    food := { Position := { X := 11, Y := 7 } },
    score := 4, gameOver := false, ticks := 0, updateCounter := 7, speed := 8 }

/-! ## Auxiliary facts -/

theorem Move_cons (s : Snake) (b0 : Point) (bs : List Point) (h : s.Body = b0 :: bs) :
    s.Move = some
      (if s.GrowCounter > 0 then
        { Body := { X := b0.X + s.Direction.X, Y := b0.Y + s.Direction.Y } :: b0 :: bs,
          Direction := s.Direction, GrowCounter := s.GrowCounter - 1 }
      else
        { Body := { X := b0.X + s.Direction.X, Y := b0.Y + s.Direction.Y } :: (b0 :: bs).dropLast,
          Direction := s.Direction, GrowCounter := s.GrowCounter }) := by
  unfold Snake.Move
  rw [h]
  by_cases hg : s.GrowCounter > 0
  · simp [hg]
  · simp [hg, List.dropLast_eq_take]

theorem hitPart_foldl (head : Point) (rest : List Point) (g : Game) :
    rest.foldl (hitPart head) g =
      if head ∈ rest then { g with gameOver := true, speed := 10 } else g := by
  induction rest generalizing g with
  | nil => simp
  | cons p ps ih =>
    rw [List.foldl_cons, ih]
    by_cases hp : head = p
    · subst hp
      by_cases hm : head ∈ ps <;> simp [hitPart, hm]
    · have hxy : ¬ (head.X = p.X ∧ head.Y = p.Y) := by
        intro hc
        apply hp
        cases head; cases p; simp_all
      by_cases hm : head ∈ ps <;> simp [hitPart, hm, hp, hxy]

theorem point_eq_iff (p q : Point) : (p.X = q.X ∧ p.Y = q.Y) ↔ p = q := by
  cases p; cases q; simp

theorem eat_eq (g : Game) (r : Rng) : eat g r = afterEat g r := by
  unfold eat afterEat
  by_cases hs : g.speed > 2 <;> simp [hs] <;> omega

theorem collisions_foldl (head : Point) (rest : List Point) (g : Game) :
    rest.foldl (hitPart head)
        (if offGrid head then { g with gameOver := true, speed := 10 } else g) =
      if offGrid head ∨ head ∈ rest then { g with gameOver := true, speed := 10 } else g := by
  rw [hitPart_foldl]
  by_cases h1 : offGrid head <;> by_cases h2 : head ∈ rest <;> simp [h1, h2]

theorem afterCollisions_food (inp : Input) (g : Game) (s : Snake) (head : Point)
    (rest : List Point) : (afterCollisions inp g s head rest).food = g.food := by
  unfold afterCollisions
  split <;> rfl

theorem simStep_eq (inp : Input) (g : Game) (r : Rng) (s : Snake) (head : Point)
    (rest : List Point) (hm : g.snake.Move = some s) (hb : s.Body = head :: rest) :
    simStep inp g r =
      some (if head = g.food.Position then afterEat (afterCollisions inp g s head rest) r
            else (afterCollisions inp g s head rest, r)) := by
  obtain ⟨body, d, gc⟩ := s
  dsimp only at hb
  subst hb
  have hcol : rest.foldl (hitPart head)
      (if offGrid head then
        { ({ g with snake := { Body := head :: rest, Direction := latch inp d,
                               GrowCounter := gc } } : Game) with
          gameOver := true, speed := 10 }
       else { g with snake := { Body := head :: rest, Direction := latch inp d, GrowCounter := gc } }) =
      afterCollisions inp g ⟨head :: rest, d, gc⟩ head rest := by
    rw [collisions_foldl]
    rfl
  unfold simStep
  rw [hm]
  dsimp only
  rw [hcol, afterCollisions_food]
  simp only [point_eq_iff, eat_eq]
  split <;> rfl

theorem afterCollisions_snake (inp : Input) (g : Game) (s : Snake) (head : Point)
    (rest : List Point) :
    (afterCollisions inp g s head rest).snake =
      { s with Direction := latch inp s.Direction } := by
  unfold afterCollisions
  split <;> rfl

theorem afterCollisions_score (inp : Input) (g : Game) (s : Snake) (head : Point)
    (rest : List Point) : (afterCollisions inp g s head rest).score = g.score := by
  unfold afterCollisions
  split <;> rfl

theorem afterCollisions_updateCounter (inp : Input) (g : Game) (s : Snake) (head : Point)
    (rest : List Point) :
    (afterCollisions inp g s head rest).updateCounter = g.updateCounter := by
  unfold afterCollisions
  split <;> rfl

theorem afterCollisions_ticks (inp : Input) (g : Game) (s : Snake) (head : Point)
    (rest : List Point) : (afterCollisions inp g s head rest).ticks = g.ticks := by
  unfold afterCollisions
  split <;> rfl

theorem afterCollisions_gameOver (inp : Input) (g : Game) (s : Snake) (head : Point)
    (rest : List Point) :
    (afterCollisions inp g s head rest).gameOver = true ↔
      (g.gameOver = true ∨ offGrid head ∨ head ∈ rest) := by
  unfold afterCollisions
  by_cases h : offGrid head ∨ head ∈ rest
  · simp [h]
  · simp only [h, if_false, or_false]

theorem afterCollisions_speed (inp : Input) (g : Game) (s : Snake) (head : Point)
    (rest : List Point) :
    (afterCollisions inp g s head rest).speed =
      if offGrid head ∨ head ∈ rest then 10 else g.speed := by
  unfold afterCollisions
  split <;> rfl

/-- A snake with a non-empty body moves without a panic; the moved snake in
full. -/
theorem Move_of_ne_nil (s : Snake) (h : s.Body ≠ []) :
    ∃ s1 : Snake, s.Move = some s1 ∧
      s1.Body = { X := (s.Body.head h).X + s.Direction.X,
                  Y := (s.Body.head h).Y + s.Direction.Y } ::
                (if s.GrowCounter > 0 then s.Body else s.Body.dropLast) ∧
      s1.Direction = s.Direction ∧
      s1.GrowCounter = (if s.GrowCounter > 0 then s.GrowCounter - 1 else s.GrowCounter) := by
  obtain ⟨body, d, gc⟩ := s
  cases body with
  | nil => exact absurd rfl h
  | cons b0 bs =>
    rw [Move_cons _ b0 bs rfl]
    by_cases hg : gc > 0 <;> simp [hg]

theorem Move_parts (s : Snake) (h : s.Body ≠ []) :
    ∃ (s1 : Snake) (head : Point) (rest : List Point),
      s.Move = some s1 ∧ s1.Body = head :: rest ∧
      head = { X := (s.Body.head h).X + s.Direction.X,
               Y := (s.Body.head h).Y + s.Direction.Y } ∧
      rest = (if s.GrowCounter > 0 then s.Body else s.Body.dropLast) ∧
      s1.Direction = s.Direction ∧
      s1.GrowCounter = (if s.GrowCounter > 0 then s.GrowCounter - 1 else s.GrowCounter) := by
  obtain ⟨s1, hm, hb, hd, hg⟩ := Move_of_ne_nil s h
  exact ⟨s1, _, _, hm, hb, rfl, rfl, hd, hg⟩

/-- A frame of a running game that is not yet due only counts. -/
theorem Update_wait (inp : Input) (g : Game) (r : Rng) (hrun : g.gameOver = false)
    (hwait : g.updateCounter + 1 < g.speed) :
    Update inp g r = some ({ g with updateCounter := g.updateCounter + 1 }, r) := by
  unfold Update
  simp [hrun, hwait]

/-- A due frame of a running game whose snake has a body: the whole effect of
`Update`, in terms of the moved snake. -/
theorem Update_step (inp : Input) (g : Game) (r : Rng) (hrun : g.gameOver = false)
    (hstep : ¬ (g.updateCounter + 1 < g.speed)) (s : Snake) (head : Point)
    (rest : List Point) (hm : g.snake.Move = some s) (hb : s.Body = head :: rest) :
    Update inp g r =
      some (if head = g.food.Position then
              afterEat (afterCollisions inp { g with updateCounter := 0 } s head rest) r
            else (afterCollisions inp { g with updateCounter := 0 } s head rest, r)) := by
  unfold Update
  simp only [hrun, hstep, if_false, Bool.false_eq_true]
  exact simStep_eq inp _ r s head rest hm hb

theorem gridWidth_eq : Int.tdiv screenWidth tileSize = 64 := by decide

theorem gridHeight_eq : Int.tdiv screenHeight tileSize = 48 := by decide

theorem offGrid_iff (head : Point) :
    offGrid head ↔ (head.X < 0 ∨ head.Y < 0 ∨ head.X ≥ 64 ∨ head.Y ≥ 48) := by
  unfold offGrid
  rw [gridWidth_eq, gridHeight_eq]

theorem NewSnake_eq :
    NewSnake = { Body := [{ X := 32, Y := 24 }], Direction := { X := 1, Y := 0 },
                 GrowCounter := 0 } := by decide

theorem NewFood_eq (r : Rng) :
    NewFood r = ({ Position := { X := r.draws r.calls 64, Y := r.draws (r.calls + 1) 48 } },
                 { draws := r.draws, calls := r.calls + 2 }) := by
  unfold NewFood Rng.Intn
  simp only [gridWidth_eq, gridHeight_eq]

/-- The fields of the state a simulation step ends in, read off the two
summaries `afterCollisions` and `afterEat`. -/
theorem step_result_fields (inp : Input) (g : Game) (r : Rng) (s : Snake) (head : Point)
    (rest : List Point) (hrun : g.gameOver = false) :
    (if head = g.food.Position then afterEat (afterCollisions inp g s head rest) r
      else (afterCollisions inp g s head rest, r)).1.snake.Body = s.Body ∧
    (if head = g.food.Position then afterEat (afterCollisions inp g s head rest) r
      else (afterCollisions inp g s head rest, r)).1.snake.Direction = latch inp s.Direction ∧
    ((if head = g.food.Position then afterEat (afterCollisions inp g s head rest) r
      else (afterCollisions inp g s head rest, r)).1.gameOver = true ↔
        (offGrid head ∨ head ∈ rest)) ∧
    (if head = g.food.Position then afterEat (afterCollisions inp g s head rest) r
      else (afterCollisions inp g s head rest, r)).1.updateCounter = g.updateCounter ∧
    (if head = g.food.Position then afterEat (afterCollisions inp g s head rest) r
      else (afterCollisions inp g s head rest, r)).1.ticks = g.ticks ∧
    (head = g.food.Position →
      (if head = g.food.Position then afterEat (afterCollisions inp g s head rest) r
        else (afterCollisions inp g s head rest, r)).1.score = g.score + 2 ∧
      (if head = g.food.Position then afterEat (afterCollisions inp g s head rest) r
        else (afterCollisions inp g s head rest, r)).1.snake.GrowCounter = 1 ∧
      (if head = g.food.Position then afterEat (afterCollisions inp g s head rest) r
        else (afterCollisions inp g s head rest, r)).1.food = (NewFood (NewFood r).2).1 ∧
      (if head = g.food.Position then afterEat (afterCollisions inp g s head rest) r
        else (afterCollisions inp g s head rest, r)).2 = (NewFood (NewFood r).2).2 ∧
      (if head = g.food.Position then afterEat (afterCollisions inp g s head rest) r
        else (afterCollisions inp g s head rest, r)).1.speed =
          (if (if offGrid head ∨ head ∈ rest then 10 else g.speed) > 2
           then (if offGrid head ∨ head ∈ rest then 10 else g.speed) - 1
           else (if offGrid head ∨ head ∈ rest then 10 else g.speed))) ∧
    (head ≠ g.food.Position →
      (if head = g.food.Position then afterEat (afterCollisions inp g s head rest) r
        else (afterCollisions inp g s head rest, r)).1.score = g.score ∧
      (if head = g.food.Position then afterEat (afterCollisions inp g s head rest) r
        else (afterCollisions inp g s head rest, r)).1.snake.GrowCounter = s.GrowCounter ∧
      (if head = g.food.Position then afterEat (afterCollisions inp g s head rest) r
        else (afterCollisions inp g s head rest, r)).1.food = g.food ∧
      (if head = g.food.Position then afterEat (afterCollisions inp g s head rest) r
        else (afterCollisions inp g s head rest, r)).2 = r ∧
      (if head = g.food.Position then afterEat (afterCollisions inp g s head rest) r
        else (afterCollisions inp g s head rest, r)).1.speed =
          (if offGrid head ∨ head ∈ rest then 10 else g.speed)) := by
  have hgo : (afterCollisions inp g s head rest).gameOver = true ↔
      (offGrid head ∨ head ∈ rest) := by
    rw [afterCollisions_gameOver]
    simp [hrun]
  by_cases hf : head = g.food.Position
  · simp only [if_pos hf]
    refine ⟨?_, ?_, hgo, ?_, ?_, ?_, ?_⟩
    · simp [afterEat, afterCollisions_snake]
    · simp [afterEat, afterCollisions_snake]
    · simp [afterEat, afterCollisions_updateCounter]
    · simp [afterEat, afterCollisions_ticks]
    · intro _
      simp only [afterEat, afterCollisions_score, afterCollisions_speed, and_self]
    · intro hne
      exact absurd hf hne
  · simp only [if_neg hf]
    refine ⟨?_, ?_, hgo, ?_, ?_, ?_, ?_⟩
    · simp [afterCollisions_snake]
    · simp [afterCollisions_snake]
    · simp [afterCollisions_updateCounter]
    · simp [afterCollisions_ticks]
    · intro he
      exact absurd he hf
    · intro _
      simp only [afterCollisions_score, afterCollisions_snake, afterCollisions_food,
        afterCollisions_speed, and_self]

/-- A due frame of a running game whose snake has a body returns a state, and
every field of that state is determined as follows. -/
theorem Update_step_fields (inp : Input) (g : Game) (r : Rng) (hrun : g.gameOver = false)
    (hbody : g.snake.Body ≠ []) (hstep : ¬ (g.updateCounter + 1 < g.speed)) :
    ∃ (s : Snake) (head : Point) (rest : List Point) (g1 : Game) (r1 : Rng),
      g.snake.Move = some s ∧ s.Body = head :: rest ∧
      head = { X := (g.snake.Body.head hbody).X + g.snake.Direction.X,
               Y := (g.snake.Body.head hbody).Y + g.snake.Direction.Y } ∧
      rest = (if g.snake.GrowCounter > 0 then g.snake.Body else g.snake.Body.dropLast) ∧
      s.GrowCounter =
        (if g.snake.GrowCounter > 0 then g.snake.GrowCounter - 1 else g.snake.GrowCounter) ∧
      Update inp g r = some (g1, r1) ∧
      g1.snake.Body = head :: rest ∧
      g1.snake.Direction = latch inp g.snake.Direction ∧
      (g1.gameOver = true ↔ (offGrid head ∨ head ∈ rest)) ∧
      g1.updateCounter = 0 ∧ g1.ticks = g.ticks ∧
      (head = g.food.Position →
        g1.score = g.score + 2 ∧ g1.snake.GrowCounter = 1 ∧
        g1.food = (NewFood (NewFood r).2).1 ∧ r1 = (NewFood (NewFood r).2).2 ∧
        g1.speed = (if (if offGrid head ∨ head ∈ rest then 10 else g.speed) > 2
                    then (if offGrid head ∨ head ∈ rest then 10 else g.speed) - 1
                    else (if offGrid head ∨ head ∈ rest then 10 else g.speed))) ∧
      (head ≠ g.food.Position →
        g1.score = g.score ∧ g1.snake.GrowCounter = s.GrowCounter ∧
        g1.food = g.food ∧ r1 = r ∧
        g1.speed = (if offGrid head ∨ head ∈ rest then 10 else g.speed)) := by
  obtain ⟨s, head, rest, hm, hb, hhead, hrest, hd, hgc⟩ := Move_parts g.snake hbody
  have hupd := Update_step inp g r hrun hstep s head rest hm hb
  obtain ⟨h1, h2, h3, h4, h5, h6, h7⟩ :=
    step_result_fields inp { g with updateCounter := 0 } r s head rest hrun
  exact ⟨s, head, rest, _, _, hm, hb, hhead, hrest, hgc, hupd, h1.trans hb, h2.trans (by rw [hd]),
    h3, h4, h5, h6, h7⟩

theorem Update_nil_body (inp : Input) (g : Game) (r : Rng) (hrun : g.gameOver = false)
    (hstep : ¬ (g.updateCounter + 1 < g.speed)) (hb : g.snake.Body = []) :
    Update inp g r = none := by
  unfold Update simStep Snake.Move
  simp [hrun, hstep, hb]

/-- One frame keeps `speed` between 2 and 10. -/
theorem Update_speed_bounds (inp : Input) (g : Game) (r : Rng) (g1 : Game) (r1 : Rng)
    (hupd : Update inp g r = some (g1, r1)) (hb : 2 ≤ g.speed ∧ g.speed ≤ 10) :
    2 ≤ g1.speed ∧ g1.speed ≤ 10 := by
  cases hgo : g.gameOver with
  | true =>
    unfold Update at hupd
    by_cases hR : inp.keyR = true
    · simp only [hgo, hR, if_true, Option.some.injEq] at hupd
      have h10 : (restart g r).1.speed = 10 := rfl
      rw [hupd] at h10
      simp only at h10
      omega
    · simp only [hgo, hR, if_true, Bool.false_eq_true, if_false, Option.some.injEq,
        Prod.mk.injEq] at hupd
      rw [← hupd.1]
      exact hb
  | false =>
    by_cases hwait : g.updateCounter + 1 < g.speed
    · rw [Update_wait inp g r hgo hwait] at hupd
      simp only [Option.some.injEq, Prod.mk.injEq] at hupd
      rw [← hupd.1]
      exact hb
    · by_cases hbody : g.snake.Body = []
      · rw [Update_nil_body inp g r hgo hwait hbody] at hupd
        exact absurd hupd (by simp)
      · obtain ⟨s, head, rest, g2, r2, -, -, -, -, -, hupd2, -, -, -, -, -, hfood, hnofood⟩ :=
          Update_step_fields inp g r hgo hbody hwait
        rw [hupd2] at hupd
        simp only [Option.some.injEq, Prod.mk.injEq] at hupd
        rw [← hupd.1]
        by_cases hf : head = g.food.Position
        · obtain ⟨-, -, -, -, hsp⟩ := hfood hf
          rw [hsp]
          split_ifs <;> omega
        · obtain ⟨-, -, -, -, hsp⟩ := hnofood hf
          rw [hsp]
          split_ifs <;> omega

/-- A run of frames from a reachable state ends in a reachable state. -/
theorem Reachable_runUpdates (inps : List Input) :
    ∀ (g : Game) (r : Rng) (g1 : Game) (r1 : Rng), Reachable g r →
      runUpdates inps g r = some (g1, r1) → Reachable g1 r1 := by
  induction inps with
  | nil =>
    intro g r g1 r1 hr hrun
    simp only [runUpdates, Option.some.injEq, Prod.mk.injEq] at hrun
    rw [← hrun.1, ← hrun.2]
    exact hr
  | cons inp rest ih =>
    intro g r g1 r1 hr hrun
    unfold runUpdates at hrun
    cases hupd : Update inp g r with
    | none => simp [hupd] at hrun
    | some p =>
      obtain ⟨g2, r2⟩ := p
      simp only [hupd] at hrun
      exact ih g2 r2 g1 r1 (Reachable.frame inp g r g2 r2 hr hupd) hrun

/-- Frames of a running game that are not yet due only count. -/
theorem runUpdates_wait (inps : List Input) :
    ∀ (g : Game) (r : Rng), g.gameOver = false →
      g.updateCounter + (inps.length : Int) < g.speed →
      runUpdates inps g r =
        some ({ g with updateCounter := g.updateCounter + (inps.length : Int) }, r) := by
  induction inps with
  | nil =>
    intro g r _ _
    simp [runUpdates]
  | cons inp rest ih =>
    intro g r hrun hlt
    simp only [List.length_cons, Nat.cast_add, Nat.cast_one] at hlt ⊢
    unfold runUpdates
    rw [Update_wait inp g r hrun (by omega)]
    simp only
    have hnext := ih { g with updateCounter := g.updateCounter + 1 } r hrun
      (by simp only; omega)
    rw [hnext]
    simp only [Option.some.injEq, Prod.mk.injEq, and_true]
    congr 1
    omega

theorem head_of_singleton (l : List Point) (h : l ≠ []) (p : Point) (hl : l = [p]) :
    l.head h = p := by
  subst hl
  rfl

/-- The head after a due frame of a running game, and the whole body when the
snake was the one cell (32,24) heading right without pending growth. -/
theorem step_from_start (inp : Input) (g : Game) (r : Rng)
    (hrun : g.gameOver = false) (hbody : g.snake.Body ≠ [])
    (hstep : ¬ (g.updateCounter + 1 < g.speed)) :
    ∃ (g1 : Game) (r1 : Rng), Update inp g r = some (g1, r1) ∧
      g1.snake.Body.head? =
        some { X := (g.snake.Body.head hbody).X + g.snake.Direction.X,
               Y := (g.snake.Body.head hbody).Y + g.snake.Direction.Y } ∧
      (g.snake.Body = [{ X := 32, Y := 24 }] → g.snake.Direction = { X := 1, Y := 0 } →
        g.snake.GrowCounter = 0 → g1.snake.Body = [{ X := 33, Y := 24 }]) := by
  obtain ⟨s, head, rest, g1, r1, -, -, hhead, hrest, -, hupd, hb1, -⟩ :=
    Update_step_fields inp g r hrun hbody hstep
  refine ⟨g1, r1, hupd, ?_, ?_⟩
  · rw [hb1, hhead]
    rfl
  · intro hb hd hg
    rw [hb1, hhead, hrest, head_of_singleton _ hbody _ hb, hb, hd, hg]
    decide

/-- `restart` always leaves `speed` at 10. -/
theorem restart_speed (g : Game) (r : Rng) : (restart g r).1.speed = 10 := rfl

/-- A due frame of a running game that ends the game leaves `speed` at 10 when
the moved head is not on the food, and at 9 when it is; a due frame whose moved
head is on the food adds 2 to the score. -/
theorem step_speed_and_score (inp : Input) (g : Game) (r : Rng)
    (hrun : g.gameOver = false) (hbody : g.snake.Body ≠ [])
    (hstep : ¬ (g.updateCounter + 1 < g.speed)) :
    ∃ (head : Point) (g1 : Game) (r1 : Rng), Update inp g r = some (g1, r1) ∧
      g1.snake.Body.head? = some head ∧
      (g1.gameOver = true → head ≠ g.food.Position → g1.speed = 10) ∧
      (g1.gameOver = true → head = g.food.Position → g1.speed = 9) ∧
      (head = g.food.Position → g1.score = g.score + 2) := by
  obtain ⟨s, head, rest, g1, r1, -, -, -, -, -, hupd, hb1, -, hgo, -, -, hfood, hnofood⟩ :=
    Update_step_fields inp g r hrun hbody hstep
  refine ⟨head, g1, r1, hupd, by rw [hb1]; rfl, ?_, ?_, ?_⟩
  · intro hover hne
    obtain ⟨-, -, -, -, hsp⟩ := hnofood hne
    rw [hsp, if_pos (hgo.mp hover)]
  · intro hover he
    obtain ⟨-, -, -, -, hsp⟩ := hfood he
    rw [hsp, if_pos (hgo.mp hover)]
    decide
  · intro he
    exact (hfood he).1

/-! ## One frame, case by case -/

/-- A frame of a finished game: a restart when `R` was just pressed, otherwise
nothing. -/
theorem Update_over (inp : Input) (g : Game) (r : Rng) (hover : g.gameOver = true) :
    Update inp g r = some (if inp.keyR = true then restart g r else (g, r)) := by
  unfold Update
  by_cases hR : inp.keyR = true <;> simp [hover, hR]

/-- A due frame of a running game that returns a state: the snake had a body,
and the fields of the returned state are those listed in
`Update_step_fields`. -/
theorem Update_due (inp : Input) (g : Game) (r : Rng) (g1 : Game) (r1 : Rng)
    (hrun : g.gameOver = false) (hstep : ¬ (g.updateCounter + 1 < g.speed))
    (hupd : Update inp g r = some (g1, r1)) :
    ∃ (hbody : g.snake.Body ≠ []) (s : Snake) (head : Point) (rest : List Point),
      g.snake.Move = some s ∧ s.Body = head :: rest ∧
      head = { X := (g.snake.Body.head hbody).X + g.snake.Direction.X,
               Y := (g.snake.Body.head hbody).Y + g.snake.Direction.Y } ∧
      rest = (if g.snake.GrowCounter > 0 then g.snake.Body else g.snake.Body.dropLast) ∧
      s.GrowCounter =
        (if g.snake.GrowCounter > 0 then g.snake.GrowCounter - 1 else g.snake.GrowCounter) ∧
      g1.snake.Body = head :: rest ∧
      g1.snake.Direction = latch inp g.snake.Direction ∧
      (g1.gameOver = true ↔ (offGrid head ∨ head ∈ rest)) ∧
      g1.updateCounter = 0 ∧ g1.ticks = g.ticks ∧
      (head = g.food.Position →
        g1.score = g.score + 2 ∧ g1.snake.GrowCounter = 1 ∧
        g1.food = (NewFood (NewFood r).2).1 ∧ r1 = (NewFood (NewFood r).2).2 ∧
        g1.speed = (if (if offGrid head ∨ head ∈ rest then 10 else g.speed) > 2
                    then (if offGrid head ∨ head ∈ rest then 10 else g.speed) - 1
                    else (if offGrid head ∨ head ∈ rest then 10 else g.speed))) ∧
      (head ≠ g.food.Position →
        g1.score = g.score ∧ g1.snake.GrowCounter = s.GrowCounter ∧
        g1.food = g.food ∧ r1 = r ∧
        g1.speed = (if offGrid head ∨ head ∈ rest then 10 else g.speed)) := by
  have hbody : g.snake.Body ≠ [] := by
    intro hnil
    rw [Update_nil_body inp g r hrun hstep hnil] at hupd
    exact absurd hupd (by simp)
  obtain ⟨s, head, rest, g2, r2, hm, hb, hhead, hrest, hgc, hupd2, h1, h2, h3, h4, h5, h6, h7⟩ :=
    Update_step_fields inp g r hrun hbody hstep
  rw [hupd] at hupd2
  simp only [Option.some.injEq, Prod.mk.injEq] at hupd2
  obtain ⟨hg, hr⟩ := hupd2
  subst hg
  subst hr
  exact ⟨hbody, s, head, rest, hm, hb, hhead, hrest, hgc, h1, h2, h3, h4, h5, h6, h7⟩

/-- The four unit directions are closed under the key chain, and the chain
never answers with the opposite of a unit direction. -/
theorem latch_unit (inp : Input) (d : Point)
    (hd : d = { X := 1, Y := 0 } ∨ d = { X := -1, Y := 0 } ∨ d = { X := 0, Y := 1 } ∨
      d = { X := 0, Y := -1 }) :
    (latch inp d = { X := 1, Y := 0 } ∨ latch inp d = { X := -1, Y := 0 } ∨
      latch inp d = { X := 0, Y := 1 } ∨ latch inp d = { X := 0, Y := -1 }) ∧
    ¬ (d.X + (latch inp d).X = 0 ∧ d.Y + (latch inp d).Y = 0) := by
  unfold latch
  rcases hd with h | h | h | h <;> subst h <;>
    cases inp.left <;> cases inp.right <;> cases inp.up <;> cases inp.down <;> decide

/-- The key chain of the code computes the rule of the specification. -/
theorem latch_eq_firstAccepted (inp : Input) (d : Point) :
    latch inp d = firstAccepted inp d := by
  unfold latch firstAccepted
  by_cases hx : d.X = 0 <;> by_cases hy : d.Y = 0 <;>
    cases inp.left <;> cases inp.right <;> cases inp.up <;> cases inp.down <;>
    simp [hx, hy, List.find?]

/-- The four ways a frame can go. -/
theorem Update_cases (inp : Input) (g : Game) (r : Rng) (g1 : Game) (r1 : Rng)
    (hupd : Update inp g r = some (g1, r1)) :
    (g.gameOver = true ∧ inp.keyR = true ∧ g1 = (restart g r).1 ∧ r1 = (restart g r).2) ∨
    (g.gameOver = true ∧ inp.keyR = false ∧ g1 = g ∧ r1 = r) ∨
    (g.gameOver = false ∧ g.updateCounter + 1 < g.speed ∧
      g1 = { g with updateCounter := g.updateCounter + 1 } ∧ r1 = r) ∨
    (g.gameOver = false ∧ ¬ (g.updateCounter + 1 < g.speed)) := by
  by_cases hgo : g.gameOver = true
  · rw [Update_over inp g r hgo] at hupd
    by_cases hR : inp.keyR = true
    · simp only [hR, if_true, Option.some.injEq] at hupd
      left
      exact ⟨hgo, hR, by rw [hupd], by rw [hupd]⟩
    · rw [if_neg hR] at hupd
      simp only [Option.some.injEq, Prod.mk.injEq] at hupd
      right; left
      exact ⟨hgo, Bool.eq_false_iff.mpr hR, hupd.1.symm, hupd.2.symm⟩
  · have hrun : g.gameOver = false := Bool.eq_false_iff.mpr hgo
    by_cases hwait : g.updateCounter + 1 < g.speed
    · rw [Update_wait inp g r hrun hwait] at hupd
      simp only [Option.some.injEq, Prod.mk.injEq] at hupd
      right; right; left
      exact ⟨hrun, hwait, hupd.1.symm, hupd.2.symm⟩
    · right; right; right
      exact ⟨hrun, hwait⟩

/-! ## Invariants of the reachable states -/

/-- The direction of a reachable state is one of the four unit vectors. -/
theorem Reachable_direction (g : Game) (r : Rng) (h : Reachable g r) :
    g.snake.Direction = { X := 1, Y := 0 } ∨ g.snake.Direction = { X := -1, Y := 0 } ∨
      g.snake.Direction = { X := 0, Y := 1 } ∨ g.snake.Direction = { X := 0, Y := -1 } := by
  induction h with
  | start r0 => exact Or.inl rfl
  | frame inp g0 r0 g1 r1 _ hupd ih =>
    rcases Update_cases inp g0 r0 g1 r1 hupd with
      ⟨-, -, hg, -⟩ | ⟨-, -, hg, -⟩ | ⟨-, -, hg, -⟩ | ⟨hrun, hstep⟩
    · rw [hg]
      exact Or.inl rfl
    · rw [hg]
      exact ih
    · rw [hg]
      exact ih
    · obtain ⟨-, s, head, rest, -, -, -, -, -, -, hdir, -⟩ :=
        Update_due inp g0 r0 g1 r1 hrun hstep hupd
      rw [hdir]
      exact (latch_unit inp g0.snake.Direction ih).1

/-- A finished reachable state has `updateCounter = 0`. -/
theorem Reachable_over_counter (g : Game) (r : Rng) (h : Reachable g r)
    (hover : g.gameOver = true) : g.updateCounter = 0 := by
  induction h with
  | start r0 => exact absurd hover Bool.false_ne_true
  | frame inp g0 r0 g1 r1 _ hupd ih =>
    rcases Update_cases inp g0 r0 g1 r1 hupd with
      ⟨-, -, hg, -⟩ | ⟨hgo, -, hg, -⟩ | ⟨hrun, -, hg, -⟩ | ⟨hrun, hstep⟩
    · rw [hg] at hover
      exact absurd hover Bool.false_ne_true
    · rw [hg]
      exact ih hgo
    · rw [hg] at hover
      exact absurd (hrun.symm.trans hover) Bool.false_ne_true
    · obtain ⟨-, s, head, rest, -, -, -, -, -, -, -, -, huc, -⟩ :=
        Update_due inp g0 r0 g1 r1 hrun hstep hupd
      exact huc

theorem fresh_body :
    NewSnake.Body ≠ [] ∧ NewSnake.Body.tail.Nodup ∧ NewSnake.Body.Nodup ∧
      ∀ p ∈ NewSnake.Body, 0 ≤ p.X ∧ p.X < 64 ∧ 0 ≤ p.Y ∧ p.Y < 48 := by
  rw [NewSnake_eq]
  refine ⟨by simp, by simp, by simp, ?_⟩
  intro p hp
  simp only [List.mem_singleton] at hp
  subst hp
  decide

/-- The body of a reachable state is non-empty and the cells behind its head
are pairwise distinct; while the game runs, all cells are pairwise distinct and
inside the grid. -/
theorem Reachable_body (g : Game) (r : Rng) (h : Reachable g r) :
    g.snake.Body ≠ [] ∧ g.snake.Body.tail.Nodup ∧
      (g.gameOver = false →
        g.snake.Body.Nodup ∧
        ∀ p ∈ g.snake.Body, 0 ≤ p.X ∧ p.X < 64 ∧ 0 ≤ p.Y ∧ p.Y < 48) := by
  induction h with
  | start r0 =>
    exact ⟨fresh_body.1, fresh_body.2.1, fun _ => fresh_body.2.2⟩
  | frame inp g0 r0 g1 r1 _ hupd ih =>
    rcases Update_cases inp g0 r0 g1 r1 hupd with
      ⟨-, -, hg, -⟩ | ⟨-, -, hg, -⟩ | ⟨-, -, hg, -⟩ | ⟨hrun, hstep⟩
    · rw [hg]
      exact ⟨fresh_body.1, fresh_body.2.1, fun _ => fresh_body.2.2⟩
    · rw [hg]
      exact ih
    · rw [hg]
      exact ih
    · obtain ⟨-, s, head, rest, -, -, -, hrest, -, hb1, -, hgo, -⟩ :=
        Update_due inp g0 r0 g1 r1 hrun hstep hupd
      obtain ⟨hnd, hgrid⟩ := ih.2.2 hrun
      have hsub : rest.Sublist g0.snake.Body := by
        rw [hrest]
        split
        · exact List.Sublist.refl _
        · exact List.dropLast_sublist _
      have hrnd : rest.Nodup := hnd.sublist hsub
      rw [hb1]
      refine ⟨List.cons_ne_nil _ _, hrnd, ?_⟩
      intro hrun1
      have hno : ¬ (offGrid head ∨ head ∈ rest) := by
        intro hc
        exact absurd ((hgo.mpr hc).symm.trans hrun1) (by decide)
      refine ⟨List.nodup_cons.mpr ⟨fun hm => hno (Or.inr hm), hrnd⟩, ?_⟩
      intro p hp
      rcases List.mem_cons.mp hp with hp | hp
      · subst hp
        have hin : ¬ (p.X < 0 ∨ p.Y < 0 ∨ p.X ≥ 64 ∨ p.Y ≥ 48) := by
          rw [← offGrid_iff]
          exact fun hc => hno (Or.inl hc)
        omega
      · exact hgrid p (hsub.subset hp)

/-- In a reachable state `GrowCounter` is 0 or 1 and the score is twice the
body length plus the pending growth minus one. -/
theorem Reachable_score (g : Game) (r : Rng) (h : Reachable g r) :
    (g.snake.GrowCounter = 0 ∨ g.snake.GrowCounter = 1) ∧
      g.score = 2 * ((g.snake.Body.length : Int) + g.snake.GrowCounter - 1) := by
  induction h with
  | start r0 => exact ⟨Or.inl rfl, rfl⟩
  | frame inp g0 r0 g1 r1 _ hupd ih =>
    rcases Update_cases inp g0 r0 g1 r1 hupd with
      ⟨-, -, hg, -⟩ | ⟨-, -, hg, -⟩ | ⟨-, -, hg, -⟩ | ⟨hrun, hstep⟩
    · rw [hg]
      exact ⟨Or.inl rfl, rfl⟩
    · rw [hg]
      exact ih
    · rw [hg]
      exact ih
    · obtain ⟨hbody, s, head, rest, -, -, -, hrest, hgc, hb1, -, -, -, -, hfood, hnofood⟩ :=
        Update_due inp g0 r0 g1 r1 hrun hstep hupd
      obtain ⟨hg01, hscore⟩ := ih
      have hpos : 0 < g0.snake.Body.length := List.length_pos.mpr hbody
      have hlen : ((head :: rest).length : Int) + s.GrowCounter
          = (g0.snake.Body.length : Int) + g0.snake.GrowCounter ∧ s.GrowCounter = 0 := by
        rw [hgc, hrest]
        rcases hg01 with h0 | h1
        · rw [h0]
          rw [if_neg (by decide), if_neg (by decide)]
          refine ⟨?_, rfl⟩
          rw [List.length_cons, List.length_dropLast]
          omega
        · rw [h1]
          rw [if_pos (by decide), if_pos (by decide)]
          refine ⟨?_, by decide⟩
          rw [List.length_cons]
          omega
      rw [hb1]
      by_cases hf : head = g0.food.Position
      · obtain ⟨hsc, hg1, -⟩ := hfood hf
        rw [hsc, hg1]
        exact ⟨Or.inr rfl, by omega⟩
      · obtain ⟨hsc, hg1, -⟩ := hnofood hf
        rw [hsc, hg1]
        exact ⟨Or.inl hlen.2, by omega⟩

/-- A frame draws with the same random source it was given. -/
theorem Update_draws (inp : Input) (g : Game) (r : Rng) (g1 : Game) (r1 : Rng)
    (hupd : Update inp g r = some (g1, r1)) : r1.draws = r.draws := by
  rcases Update_cases inp g r g1 r1 hupd with
    ⟨-, -, -, hr⟩ | ⟨-, -, -, hr⟩ | ⟨-, -, -, hr⟩ | ⟨hrun, hstep⟩
  · rw [hr]
    rfl
  · rw [hr]
  · rw [hr]
  · obtain ⟨-, s, head, rest, -, -, -, -, -, -, -, -, -, -, hfood, hnofood⟩ :=
      Update_due inp g r g1 r1 hrun hstep hupd
    by_cases hf : head = g.food.Position
    · rw [(hfood hf).2.2.2.1]
      rfl
    · rw [(hnofood hf).2.2.2.1]

/-- A food drawn from a source whose draws are in range lies inside the grid. -/
theorem NewFood_in_grid (r : Rng) (hr : drawsInRange r) :
    0 ≤ (NewFood r).1.Position.X ∧ (NewFood r).1.Position.X < 64 ∧
      0 ≤ (NewFood r).1.Position.Y ∧ (NewFood r).1.Position.Y < 48 := by
  rw [NewFood_eq]
  have hx := hr r.calls 64 (by decide)
  have hy := hr (r.calls + 1) 48 (by decide)
  exact ⟨hx.1, hx.2, hy.1, hy.2⟩

theorem NewFood_drawsInRange (r : Rng) (hr : drawsInRange r) :
    drawsInRange (NewFood r).2 := by
  rw [NewFood_eq]
  exact hr

/-- The food of a reachable state lies inside the grid when the draws of the
random source are in range. -/
theorem Reachable_food (g : Game) (r : Rng) (h : Reachable g r) (hr : drawsInRange r) :
    0 ≤ g.food.Position.X ∧ g.food.Position.X < 64 ∧
      0 ≤ g.food.Position.Y ∧ g.food.Position.Y < 48 := by
  induction h with
  | start r0 => exact NewFood_in_grid r0 hr
  | frame inp g0 r0 g1 r1 _ hupd ih =>
    have hr0 : drawsInRange r0 := by
      intro k n hn
      rw [← Update_draws inp g0 r0 g1 r1 hupd]
      exact hr k n hn
    rcases Update_cases inp g0 r0 g1 r1 hupd with
      ⟨-, -, hg, -⟩ | ⟨-, -, hg, -⟩ | ⟨-, -, hg, -⟩ | ⟨hrun, hstep⟩
    · rw [hg]
      exact NewFood_in_grid r0 hr0
    · rw [hg]
      exact ih hr0
    · rw [hg]
      exact ih hr0
    · obtain ⟨-, s, head, rest, -, -, -, -, -, -, -, -, -, -, hfood, hnofood⟩ :=
        Update_due inp g0 r0 g1 r1 hrun hstep hupd
      by_cases hf : head = g0.food.Position
      · rw [(hfood hf).2.2.1]
        exact NewFood_in_grid _ (NewFood_drawsInRange r0 hr0)
      · rw [(hnofood hf).2.2.1]
        exact ih hr0

/-- One frame that is not a restart, from a state whose `GrowCounter` is 0 or
1: body length plus pending growth rises by one when the frame consumes the
food and stays as it is otherwise. -/
theorem frame_growth (inp : Input) (g : Game) (r : Rng) (g1 : Game) (r1 : Rng)
    (hg01 : g.snake.GrowCounter = 0 ∨ g.snake.GrowCounter = 1)
    (hupd : Update inp g r = some (g1, r1)) (hnr : isRestart inp g = false) :
    (g1.snake.Body.length : Int) + g1.snake.GrowCounter =
      (g.snake.Body.length : Int) + g.snake.GrowCounter +
        (if isMeal g = true then 1 else 0) := by
  rcases Update_cases inp g r g1 r1 hupd with
    ⟨hgo, hR, -, -⟩ | ⟨hgo, -, hg, -⟩ | ⟨hrun, hwait, hg, -⟩ | ⟨hrun, hstep⟩
  · unfold isRestart at hnr
    rw [hgo, hR] at hnr
    exact absurd hnr (by decide)
  · have hm : isMeal g = false := by
      unfold isMeal
      rw [hgo]
      rfl
    rw [hg, hm]
    simp
  · have hm : isMeal g = false := by
      unfold isMeal
      simp [hwait]
    rw [hg, hm]
    simp
  · obtain ⟨hbody, s, head, rest, hmv, hb, -, hrest, hgc, hb1, -, -, -, -, hfood, hnofood⟩ :=
      Update_due inp g r g1 r1 hrun hstep hupd
    have hpos : 0 < g.snake.Body.length := List.length_pos.mpr hbody
    have hlen : ((head :: rest).length : Int) + s.GrowCounter
        = (g.snake.Body.length : Int) + g.snake.GrowCounter ∧ s.GrowCounter = 0 := by
      rw [hgc, hrest]
      rcases hg01 with h0 | h1
      · rw [h0]
        rw [if_neg (by decide), if_neg (by decide)]
        refine ⟨?_, rfl⟩
        rw [List.length_cons, List.length_dropLast]
        omega
      · rw [h1]
        rw [if_pos (by decide), if_pos (by decide)]
        refine ⟨?_, by decide⟩
        rw [List.length_cons]
        omega
    have hmeal : isMeal g = true ↔ head = g.food.Position := by
      unfold isMeal
      rw [hmv]
      simp [hrun, hstep, hb]
    rw [hb1]
    by_cases hf : head = g.food.Position
    · rw [if_pos (hmeal.mpr hf), (hfood hf).2.1]
      omega
    · rw [if_neg (fun hc => hf (hmeal.mp hc)), (hnofood hf).2.1]
      omega

/-- A run without restarts from a reachable state: body length plus pending
growth rises by the number of frames that consume the food, and the score by
twice that number. -/
theorem run_growth (inps : List Input) :
    ∀ (g : Game) (r : Rng) (g1 : Game) (r1 : Rng), Reachable g r →
      runUpdates inps g r = some (g1, r1) → countRestarts inps g r = 0 →
      (g1.snake.Body.length : Int) + g1.snake.GrowCounter =
        (g.snake.Body.length : Int) + g.snake.GrowCounter + (countMeals inps g r : Int) := by
  induction inps with
  | nil =>
    intro g r g1 r1 _ hrun _
    simp only [runUpdates, Option.some.injEq, Prod.mk.injEq] at hrun
    rw [← hrun.1]
    simp [countMeals]
  | cons inp rest ih =>
    intro g r g1 r1 hr hrun hnr
    unfold runUpdates at hrun
    unfold countRestarts at hnr
    unfold countMeals
    cases hupd : Update inp g r with
    | none => simp [hupd] at hrun
    | some p =>
      obtain ⟨g2, r2⟩ := p
      simp only [hupd] at hrun hnr ⊢
      have hnr1 : isRestart inp g = false := by
        cases hc : isRestart inp g with
        | false => rfl
        | true =>
          rw [hc] at hnr
          simp at hnr
      have hnr2 : countRestarts rest g2 r2 = 0 := by omega
      have h1 := frame_growth inp g r g2 r2 (Reachable_score g r hr).1 hupd hnr1
      have h2 := ih g2 r2 g1 r1 (Reachable.frame inp g r g2 r2 hr hupd) hrun hnr2
      rw [h2, h1]
      split <;> simp only [Nat.cast_add, Nat.cast_one, Nat.cast_zero] <;> omega

/-- The due frame of a running game with a fresh snake and speed 10: the snake
moves to (33,24) and the frame counter is back at 0. -/
theorem first_step_of_fresh (inp : Input) (g : Game) (r : Rng) (hrun : g.gameOver = false)
    (hsnake : g.snake = NewSnake) (hcount : g.updateCounter = 9) (hspeed : g.speed = 10) :
    ∃ (g1 : Game) (r1 : Rng), Update inp g r = some (g1, r1) ∧
      g1.snake.Body = [{ X := 33, Y := 24 }] ∧ g1.updateCounter = 0 := by
  have hbody : g.snake.Body ≠ [] := by
    rw [hsnake]
    exact fresh_body.1
  have hstep : ¬ (g.updateCounter + 1 < g.speed) := by
    rw [hcount, hspeed]
    decide
  obtain ⟨g1, r1, hupd, -, hcell⟩ := step_from_start inp g r hrun hbody hstep
  obtain ⟨-, s, head, rest, -, -, -, -, -, -, -, -, huc, -⟩ :=
    Update_due inp g r g1 r1 hrun hstep hupd
  refine ⟨g1, r1, hupd, hcell ?_ ?_ ?_, huc⟩
  · rw [hsnake, NewSnake_eq]
  · rw [hsnake, NewSnake_eq]
  · rw [hsnake, NewSnake_eq]

/-- Over a run without restarts from a reachable state the score rises by
twice the number of frames that consume the food. -/
theorem run_score (inps : List Input) (g : Game) (r : Rng) (g1 : Game) (r1 : Rng)
    (h : Reachable g r) (hrun : runUpdates inps g r = some (g1, r1))
    (hnr : countRestarts inps g r = 0) :
    g1.score = g.score + 2 * (countMeals inps g r : Int) := by
  have hsum := run_growth inps g r g1 r1 h hrun hnr
  have h0 := (Reachable_score g r h).2
  have h1 := (Reachable_score g1 r1 (Reachable_runUpdates inps g r g1 r1 h hrun)).2
  omega

/-! ## The claims -/

/-- C1 does not hold of the code: in the game whose first food lies at (33,24),
right in front of the new snake, the tenth frame is a simulation step of a
running game that moves the head onto the food, and it takes the score from 0
to 2, not to 1 (`g.score++` is executed twice, main.go 141 and 144). -/
theorem C1_meal_scores_two :
    ∃ (g : Game) (r : Rng) (s : Snake) (g1 : Game) (r1 : Rng),
      runUpdates (List.replicate 9 noKeys) (main foodOnPath).1 (main foodOnPath).2
        = some (g, r) ∧
      g.gameOver = false ∧ ¬ (g.updateCounter + 1 < g.speed) ∧
      g.snake.Move = some s ∧ s.Body.head? = some g.food.Position ∧
      Update noKeys g r = some (g1, r1) ∧
      g.score = 0 ∧ g1.score = 2 ∧ g1.score ≠ g.score + 1 :=
  ⟨_, _, _, _, _, rfl, rfl, by decide, rfl, rfl, rfl, rfl, rfl, by decide⟩

/-- C2: in a running game whose snake has a body, a due frame (one that
performs the simulation step) returns a state whose body is the moved body
`head :: rest`, and it ends with `gameOver = true` exactly when the moved head
is outside the 64 x 48 grid or is one of the cells `rest` behind it; otherwise
`gameOver` is still false.  With the head at (63,24) and direction (1,0) the
moved head is (64,24) and the game is over. -/
theorem C2_gameOver_iff_collision (inp : Input) (g : Game) (r : Rng)
    (hrun : g.gameOver = false) (hbody : g.snake.Body ≠ [])
    (hstep : ¬ (g.updateCounter + 1 < g.speed)) :
    ∃ (s : Snake) (head : Point) (rest : List Point) (g1 : Game) (r1 : Rng),
      g.snake.Move = some s ∧ s.Body = head :: rest ∧
      Update inp g r = some (g1, r1) ∧ g1.snake.Body = head :: rest ∧
      (g1.gameOver = true ↔
        ((head.X < 0 ∨ head.Y < 0 ∨ head.X ≥ 64 ∨ head.Y ≥ 48) ∨ head ∈ rest)) ∧
      (¬ ((head.X < 0 ∨ head.Y < 0 ∨ head.X ≥ 64 ∨ head.Y ≥ 48) ∨ head ∈ rest) →
        g1.gameOver = false) ∧
      (g.snake.Body.head hbody = { X := 63, Y := 24 } →
        g.snake.Direction = { X := 1, Y := 0 } →
        head = { X := 64, Y := 24 } ∧ g1.gameOver = true) := by
  obtain ⟨s, head, rest, g1, r1, hm, hb, hhead, -, -, hupd, hb1, -, hgo, -⟩ :=
    Update_step_fields inp g r hrun hbody hstep
  rw [offGrid_iff] at hgo
  refine ⟨s, head, rest, g1, r1, hm, hb, hupd, hb1, hgo, ?_, ?_⟩
  · intro hno
    cases hc : g1.gameOver with
    | false => rfl
    | true => exact absurd (hgo.mp hc) hno
  · intro hh hd
    have h64 : head = { X := 64, Y := 24 } := by
      rw [hhead, hh, hd]
      decide
    refine ⟨h64, hgo.mpr (Or.inl ?_)⟩
    rw [h64]
    decide

/-- C2, at the one-cell snake at (63,24) heading right, with the food
elsewhere: the due frame ends the game with the head at (64,24). -/
theorem C2_gameOver_iff_collision_witness :
    atTheWall.gameOver = false ∧ atTheWall.snake.Body ≠ [] ∧
      ¬ (atTheWall.updateCounter + 1 < atTheWall.speed) ∧
      ∃ (g1 : Game) (r1 : Rng), Update noKeys atTheWall zeroRng = some (g1, r1) ∧
        g1.snake.Body = [{ X := 64, Y := 24 }] ∧ g1.gameOver = true := by
  refine ⟨by decide, by decide, by decide, ?_⟩
  obtain ⟨s, head, rest, g1, r1, hm, hb, hupd, hb1, -, -, hwall⟩ :=
    C2_gameOver_iff_collision noKeys atTheWall zeroRng (by decide) (by decide) (by decide)
  obtain ⟨-, hover⟩ := hwall (by decide) (by decide)
  have hs : s = { Body := [{ X := 64, Y := 24 }], Direction := { X := 1, Y := 0 },
                  GrowCounter := 0 } := by
    have hm2 : atTheWall.snake.Move
        = some { Body := [{ X := 64, Y := 24 }], Direction := { X := 1, Y := 0 },
                 GrowCounter := 0 } := by decide
    rw [hm2] at hm
    exact (Option.some.inj hm).symm
  rw [hs] at hb
  exact ⟨g1, r1, hupd, by rw [hb1, ← hb], hover⟩

/-- C3 does not hold of the code: the state after the 58 frames `loopFrames`
of the game with random source `foodOnPath` is reachable and running; its next
frame is a simulation step that moves the head onto a cell of its own body on
which the food lies, and that frame ends with `gameOver = true` and
`speed = 9`, not 10 (the meal block, main.go 149-151, decrements the speed that
the collision test has just reset). -/
theorem C3_lethal_meal_leaves_speed_nine :
    ∃ (g : Game) (r : Rng) (g1 : Game) (r1 : Rng),
      runUpdates loopFrames (main foodOnPath).1 (main foodOnPath).2 = some (g, r) ∧
      Reachable g r ∧ g.gameOver = false ∧
      Update noKeys g r = some (g1, r1) ∧
      g1.gameOver = true ∧ g1.speed = 9 ∧ g1.speed ≠ 10 := by
  have hrun : runUpdates loopFrames (main foodOnPath).1 (main foodOnPath).2
      = some (_, _) := rfl
  exact ⟨_, _, _, _, hrun,
    Reachable_runUpdates loopFrames _ _ _ _ (Reachable.start foodOnPath) hrun,
    rfl, rfl, rfl, rfl, by decide⟩

/-- C4: in every state reachable from the state built by `main` by calls of
`Update`, for any inputs and any values drawn from the random source,
`2 <= speed <= 10`. -/
theorem C4_speed_bounds (g : Game) (r : Rng) (h : Reachable g r) :
    2 ≤ g.speed ∧ g.speed ≤ 10 := by
  induction h with
  | start r0 =>
    have h10 : (main r0).1.speed = 10 := rfl
    rw [h10]
    exact ⟨by decide, by decide⟩
  | frame inp g0 r0 g1 r1 _ hupd ih => exact Update_speed_bounds inp g0 r0 g1 r1 hupd ih

/-- C4, at the state built by `main` for the random source `zeroRng`. -/
theorem C4_speed_bounds_witness :
    Reachable (main zeroRng).1 (main zeroRng).2 ∧
      2 ≤ (main zeroRng).1.speed ∧ (main zeroRng).1.speed ≤ 10 :=
  ⟨Reachable.start zeroRng,
   C4_speed_bounds (main zeroRng).1 (main zeroRng).2 (Reachable.start zeroRng)⟩

/-- C5: when the game is over and `R` has not just been pressed, `Update`
returns the state it was given, whatever arrow keys are held: snake (body,
direction, `GrowCounter`), food, score, speed, `updateCounter` and `gameOver`
are all unchanged, and nothing is drawn from the random source. -/
theorem C5_gameOver_latched (inp : Input) (g : Game) (r : Rng)
    (hover : g.gameOver = true) (hR : inp.keyR = false) :
    Update inp g r = some (g, r) := by
  unfold Update
  simp [hover, hR]

/-- C5, at a finished game while all four arrows are held. -/
theorem C5_gameOver_latched_witness :
    finishedGame.gameOver = true ∧ allArrows.keyR = false ∧
      Update allArrows finishedGame zeroRng = some (finishedGame, zeroRng) :=
  ⟨by decide, by decide, C5_gameOver_latched allArrows finishedGame zeroRng (by decide) (by decide)⟩

/-- C6: when the game is over and `R` has just been pressed, `Update` returns a
state with body `[(32,24)]`, direction (1,0), `GrowCounter = 0`, score 0,
speed 10, `gameOver = false` and the food at the next two draws of the random
source (`X` from the first, below 64, `Y` from the second, below 48), whatever
the snake, food, score and speed were before. -/
theorem C6_restart_on_R (inp : Input) (g : Game) (r : Rng)
    (hover : g.gameOver = true) (hR : inp.keyR = true) :
    ∃ (g1 : Game) (r1 : Rng), Update inp g r = some (g1, r1) ∧
      g1.snake.Body = [{ X := 32, Y := 24 }] ∧
      g1.snake.Direction = { X := 1, Y := 0 } ∧
      g1.snake.GrowCounter = 0 ∧
      g1.score = 0 ∧ g1.speed = 10 ∧ g1.gameOver = false ∧
      g1.food.Position = { X := r.draws r.calls 64, Y := r.draws (r.calls + 1) 48 } ∧
      r1.draws = r.draws ∧ r1.calls = r.calls + 2 := by
  refine ⟨(restart g r).1, (restart g r).2, ?_, ?_⟩
  · unfold Update
    simp [hover, hR]
  · unfold restart
    simp only [NewFood_eq, NewSnake_eq]
    simp

/-- C6, at a finished game with a long snake, score 10 and speed 9. -/
theorem C6_restart_on_R_witness :
    finishedGame.gameOver = true ∧ pressR.keyR = true ∧
      ∃ (g1 : Game) (r1 : Rng), Update pressR finishedGame zeroRng = some (g1, r1) ∧
        g1.snake = NewSnake ∧ g1.score = 0 ∧ g1.speed = 10 ∧ g1.gameOver = false := by
  refine ⟨by decide, by decide, ?_⟩
  obtain ⟨g1, r1, hupd, hb, hd, hg, hs, hsp, hgo, -⟩ :=
    C6_restart_on_R pressR finishedGame zeroRng (by decide) (by decide)
  refine ⟨g1, r1, hupd, ?_, hs, hsp, hgo⟩
  rw [NewSnake_eq]
  cases hsn : g1.snake with
  | mk b d c =>
    rw [hsn] at hb hd hg
    simp only at hb hd hg
    rw [hb, hd, hg]

/-- C7 fails as stated: `restart` applied to a state whose `updateCounter` is 5
returns a state whose `updateCounter` is still 5, not 0. -/
theorem C7_restart_keeps_stale_counter :
    staleCounter.updateCounter = 5 ∧
      (restart staleCounter zeroRng).1.updateCounter = 5 ∧
      (restart staleCounter zeroRng).1.updateCounter ≠ 0 := by
  decide

/-- C7, amended: `restart` never writes `updateCounter`; the state it returns
has the `updateCounter` of the state it was applied to (so it is 0 exactly when
it was 0 before). -/
theorem C7_restart_updateCounter (g : Game) (r : Rng) :
    (restart g r).1.updateCounter = g.updateCounter ∧
      ((restart g r).1.updateCounter = 0 ↔ g.updateCounter = 0) := by
  have h : (restart g r).1.updateCounter = g.updateCounter := rfl
  exact ⟨h, by rw [h]⟩

/-- C8: in a running game, a frame with `updateCounter + 1 < speed` returns the
same state with `updateCounter` one higher (snake, food, score, speed and
`gameOver` unchanged, nothing drawn), whatever keys are held; a frame with
`updateCounter + 1 >= speed` is the simulation step applied to the state with
`updateCounter = 0`, which moves the snake once and returns a state with
`updateCounter = 0`.  From the state built by `main`, any nine frames give the
same state with `updateCounter = 9` (head still at (32,24)), and the tenth
frame moves the head to (33,24). -/
theorem C8_cadence_gate (inp : Input) (g : Game) (r : Rng) (hrun : g.gameOver = false) :
    (g.updateCounter + 1 < g.speed →
      Update inp g r = some ({ g with updateCounter := g.updateCounter + 1 }, r)) ∧
    (¬ (g.updateCounter + 1 < g.speed) → g.snake.Body ≠ [] →
      ∃ (s : Snake) (g1 : Game) (r1 : Rng),
        Update inp g r = simStep inp { g with updateCounter := 0 } r ∧
        Update inp g r = some (g1, r1) ∧ g.snake.Move = some s ∧
        g1.snake.Body = s.Body ∧ g1.updateCounter = 0) ∧
    (∀ (r0 : Rng) (inps : List Input) (inp10 : Input), inps.length = 9 →
      runUpdates inps (main r0).1 (main r0).2
        = some ({ (main r0).1 with updateCounter := 9 }, (main r0).2) ∧
      ({ (main r0).1 with updateCounter := 9 } : Game).snake.Body = [{ X := 32, Y := 24 }] ∧
      ∃ (g10 : Game) (r10 : Rng),
        Update inp10 { (main r0).1 with updateCounter := 9 } (main r0).2 = some (g10, r10) ∧
        g10.snake.Body = [{ X := 33, Y := 24 }] ∧ g10.updateCounter = 0) := by
  refine ⟨fun hwait => Update_wait inp g r hrun hwait, ?_, ?_⟩
  · intro hstep hbody
    obtain ⟨s, head, rest, g1, r1, hm, hb, -, -, -, hupd, hb1, -, -, huc, -⟩ :=
      Update_step_fields inp g r hrun hbody hstep
    refine ⟨s, g1, r1, ?_, hupd, hm, hb1.trans hb.symm, huc⟩
    unfold Update
    simp only [hrun, hstep, if_false, Bool.false_eq_true]
  · intro r0 inps inp10 hlen
    have hsnake : (main r0).1.snake = NewSnake := rfl
    have hspeed : (main r0).1.speed = 10 := rfl
    have hcount : (main r0).1.updateCounter = 0 := rfl
    refine ⟨?_, ?_, ?_⟩
    · have h := runUpdates_wait inps (main r0).1 (main r0).2 rfl
        (by rw [hlen, hspeed, hcount]; decide)
      rw [h, hlen]
      rfl
    · show (main r0).1.snake.Body = [{ X := 32, Y := 24 }]
      rw [hsnake, NewSnake_eq]
    · have hbody : ({ (main r0).1 with updateCounter := 9 } : Game).snake.Body ≠ [] := by
        show (main r0).1.snake.Body ≠ []
        rw [hsnake]
        decide
      have hdue : ¬ (({ (main r0).1 with updateCounter := 9 } : Game).updateCounter + 1
          < ({ (main r0).1 with updateCounter := 9 } : Game).speed) := by
        show ¬ ((9 : Int) + 1 < (main r0).1.speed)
        rw [hspeed]
        decide
      obtain ⟨g1, r1, hupd, -, hcell⟩ :=
        step_from_start inp10 { (main r0).1 with updateCounter := 9 } (main r0).2 rfl
          hbody hdue
      have hb10 := hcell (by show (main r0).1.snake.Body = _; rw [hsnake, NewSnake_eq])
        (by show (main r0).1.snake.Direction = _; rw [hsnake, NewSnake_eq])
        (by show (main r0).1.snake.GrowCounter = _; rw [hsnake, NewSnake_eq])
      obtain ⟨s2, head2, rest2, g2, r2, -, -, -, -, -, hupd2, -, -, -, huc, -⟩ :=
        Update_step_fields inp10 { (main r0).1 with updateCounter := 9 } (main r0).2 rfl
          hbody hdue
      rw [hupd] at hupd2
      simp only [Option.some.injEq, Prod.mk.injEq] at hupd2
      rw [← hupd2.1] at huc
      exact ⟨g1, r1, hupd, hb10, huc⟩

/-- C8, at the state built by `main` for the random source `zeroRng`, with all
four arrows held: the first frame only counts. -/
theorem C8_cadence_gate_witness :
    (main zeroRng).1.gameOver = false ∧
      Update allArrows (main zeroRng).1 (main zeroRng).2
        = some ({ (main zeroRng).1 with updateCounter := 1 }, (main zeroRng).2) :=
  ⟨by decide,
   (C8_cadence_gate allArrows (main zeroRng).1 (main zeroRng).2 (by decide)).1 (by decide)⟩

/-- C9: in a running game whose snake has a body, a due frame (one that
performs the simulation step) returns a state whose head is the old head plus
the direction the snake had before the frame, whatever keys are held during
the frame.  From the one-cell body (32,24) with direction (1,0) and no pending
growth, the new body is the one cell (33,24). -/
theorem C9_head_advance (inp : Input) (g : Game) (r : Rng)
    (hrun : g.gameOver = false) (hbody : g.snake.Body ≠ [])
    (hstep : ¬ (g.updateCounter + 1 < g.speed)) :
    ∃ (g1 : Game) (r1 : Rng), Update inp g r = some (g1, r1) ∧
      g1.snake.Body.head? =
        some { X := (g.snake.Body.head hbody).X + g.snake.Direction.X,
               Y := (g.snake.Body.head hbody).Y + g.snake.Direction.Y } ∧
      (g.snake.Body = [{ X := 32, Y := 24 }] → g.snake.Direction = { X := 1, Y := 0 } →
        g.snake.GrowCounter = 0 → g1.snake.Body = [{ X := 33, Y := 24 }]) := by
  exact step_from_start inp g r hrun hbody hstep

/-- C9, at a two-cell snake heading right while Up is held: the head still
moves right. -/
theorem C9_head_advance_witness :
    twoCells.gameOver = false ∧ twoCells.snake.Body ≠ [] ∧
      ¬ (twoCells.updateCounter + 1 < twoCells.speed) ∧
      ∃ (g1 : Game) (r1 : Rng), Update holdUp twoCells zeroRng = some (g1, r1) ∧
        g1.snake.Body.head? = some { X := 11, Y := 7 } := by
  refine ⟨by decide, by decide, by decide, ?_⟩
  obtain ⟨g1, r1, hupd, hh, -⟩ :=
    C9_head_advance holdUp twoCells zeroRng (by decide) (by decide) (by decide)
  exact ⟨g1, r1, hupd, by rw [hh]; decide⟩

/-- C10: for a snake with a non-empty body, `Move` returns a snake with the
same direction and a non-empty body; when `GrowCounter > 0` the new body is the
old one with `Body[0] + Direction` put in front, `GrowCounter` is one less and
the length is one more; when `GrowCounter = 0` the new body is the old one
without its last cell with `Body[0] + Direction` put in front, `GrowCounter`
stays 0 and the length is unchanged. -/
theorem C10_Move (s : Snake) (h : s.Body ≠ []) :
    ∃ s1 : Snake, s.Move = some s1 ∧ s1.Direction = s.Direction ∧ s1.Body ≠ [] ∧
      (s.GrowCounter > 0 →
        s1.Body = { X := (s.Body.head h).X + s.Direction.X,
                    Y := (s.Body.head h).Y + s.Direction.Y } :: s.Body ∧
        s1.GrowCounter = s.GrowCounter - 1 ∧
        s1.Body.length = s.Body.length + 1) ∧
      (s.GrowCounter = 0 →
        s1.Body = { X := (s.Body.head h).X + s.Direction.X,
                    Y := (s.Body.head h).Y + s.Direction.Y } :: s.Body.dropLast ∧
        s1.GrowCounter = 0 ∧
        s1.Body.length = s.Body.length) := by
  obtain ⟨s1, hm, hb, hd, hg⟩ := Move_of_ne_nil s h
  refine ⟨s1, hm, hd, ?_, ?_, ?_⟩
  · rw [hb]
    exact List.cons_ne_nil _ _
  · intro hpos
    rw [hb, hg]
    simp [hpos]
  · intro hzero
    rw [hb, hg]
    have hlen : 0 < s.Body.length := List.length_pos.mpr h
    simp [hzero]
    omega

/-- C10, at the snake of a new game: it moves to the one-cell body (33,24). -/
theorem C10_Move_witness :
    NewSnake.Body ≠ [] ∧
      ∃ s1 : Snake, NewSnake.Move = some s1 ∧ s1.Body = [{ X := 33, Y := 24 }] ∧
        s1.GrowCounter = 0 ∧ s1.Direction = { X := 1, Y := 0 } := by
  refine ⟨by decide, ?_⟩
  obtain ⟨s1, hm, hd, _, _, h0⟩ := C10_Move NewSnake (by decide)
  obtain ⟨hb, hg, _⟩ := h0 rfl
  exact ⟨s1, hm, by rw [hb]; decide, hg, by rw [hd]; decide⟩

/-- C11: in a running game whose snake has a body, a due frame (one that
performs the simulation step) returns a state whose direction is that of the
first arrow, in the order Left (-1,0), Right (1,0), Up (0,-1), Down (0,1), that
is both held and perpendicular to the direction before the frame (Left and
Right need `X = 0`, Up and Down need `Y = 0`), and the old direction when no
held arrow qualifies.  With direction (1,0) and Left and Up both held the new
direction is (0,-1). -/
theorem C11_direction_rule (inp : Input) (g : Game) (r : Rng)
    (hrun : g.gameOver = false) (hbody : g.snake.Body ≠ [])
    (hstep : ¬ (g.updateCounter + 1 < g.speed)) :
    ∃ (g1 : Game) (r1 : Rng), Update inp g r = some (g1, r1) ∧
      g1.snake.Direction = firstAccepted inp g.snake.Direction ∧
      (g.snake.Direction = { X := 1, Y := 0 } → inp.left = true → inp.up = true →
        g1.snake.Direction = { X := 0, Y := -1 }) := by
  obtain ⟨s, head, rest, g1, r1, -, -, -, -, -, hupd, -, hdir, -⟩ :=
    Update_step_fields inp g r hrun hbody hstep
  refine ⟨g1, r1, hupd, ?_, ?_⟩
  · rw [hdir, latch_eq_firstAccepted]
  · intro hd hl hu
    rw [hdir, hd]
    unfold latch
    simp [hl, hu]

/-- C11, at a two-cell snake heading right while Left and Up are held: the new
direction is up. -/
theorem C11_direction_rule_witness :
    twoCells.gameOver = false ∧ twoCells.snake.Body ≠ [] ∧
      ¬ (twoCells.updateCounter + 1 < twoCells.speed) ∧
      ∃ (g1 : Game) (r1 : Rng), Update leftAndUp twoCells zeroRng = some (g1, r1) ∧
        g1.snake.Direction = { X := 0, Y := -1 } := by
  refine ⟨by decide, by decide, by decide, ?_⟩
  obtain ⟨g1, r1, hupd, -, hex⟩ :=
    C11_direction_rule leftAndUp twoCells zeroRng (by decide) (by decide) (by decide)
  exact ⟨g1, r1, hupd, hex rfl rfl rfl⟩

/-- C12: in a reachable running state, a due frame (one that performs the
simulation step) returns a state whose direction is not the opposite of the
direction before the frame, whatever keys are held and whatever the length of
the body: the two directions do not add up to (0,0).  With direction (1,0)
and neither Up nor Down held, the direction stays (1,0), whether or not Left
is held. -/
theorem C12_no_reverse (inp : Input) (g : Game) (r : Rng) (h : Reachable g r)
    (hrun : g.gameOver = false) (hstep : ¬ (g.updateCounter + 1 < g.speed)) :
    ∃ (g1 : Game) (r1 : Rng), Update inp g r = some (g1, r1) ∧
      ¬ (g.snake.Direction.X + g1.snake.Direction.X = 0 ∧
         g.snake.Direction.Y + g1.snake.Direction.Y = 0) ∧
      (g.snake.Direction = { X := 1, Y := 0 } → inp.up = false → inp.down = false →
        g1.snake.Direction = { X := 1, Y := 0 }) := by
  obtain ⟨s, head, rest, g1, r1, -, -, -, -, -, hupd, -, hdir, -⟩ :=
    Update_step_fields inp g r hrun (Reachable_body g r h).1 hstep
  refine ⟨g1, r1, hupd, ?_, ?_⟩
  · rw [hdir]
    exact (latch_unit inp g.snake.Direction (Reachable_direction g r h)).2
  · intro hd hu hdn
    rw [hdir, hd]
    unfold latch
    simp [hu, hdn]

/-- C12, at the state nine idle frames after the start: the snake heads right,
Left is held during the tenth frame, and the direction is still (1,0). -/
theorem C12_no_reverse_witness :
    ∃ (g : Game) (r : Rng) (g1 : Game) (r1 : Rng),
      runUpdates (List.replicate 9 noKeys) (main zeroRng).1 (main zeroRng).2 = some (g, r) ∧
      Reachable g r ∧ g.gameOver = false ∧ ¬ (g.updateCounter + 1 < g.speed) ∧
      g.snake.Direction = { X := 1, Y := 0 } ∧
      Update holdLeft g r = some (g1, r1) ∧ g1.snake.Direction = { X := 1, Y := 0 } := by
  have hrun : runUpdates (List.replicate 9 noKeys) (main zeroRng).1 (main zeroRng).2
      = some (_, _) := rfl
  have hreach := Reachable_runUpdates (List.replicate 9 noKeys) _ _ _ _
    (Reachable.start zeroRng) hrun
  obtain ⟨g1, r1, hupd, -, hkeep⟩ := C12_no_reverse holdLeft _ _ hreach rfl (by decide)
  exact ⟨_, _, g1, r1, hrun, hreach, rfl, by decide, rfl, hupd, hkeep rfl rfl rfl⟩

/-- C13 fails as stated: the first ten frames of the game whose first food lies
at (33,24) are a run from a reachable state with no restart and exactly one
frame that consumes the food, and the body has one cell at the start and still
one cell at the end (the growth is pending: `GrowCounter = 1`). -/
theorem C13_meal_does_not_lengthen_at_once :
    ∃ (g1 : Game) (r1 : Rng),
      runUpdates (List.replicate 10 noKeys) (main foodOnPath).1 (main foodOnPath).2
        = some (g1, r1) ∧
      countRestarts (List.replicate 10 noKeys) (main foodOnPath).1 (main foodOnPath).2 = 0 ∧
      countMeals (List.replicate 10 noKeys) (main foodOnPath).1 (main foodOnPath).2 = 1 ∧
      (main foodOnPath).1.snake.Body.length = 1 ∧ g1.snake.Body.length = 1 ∧
      g1.snake.Body.length ≠ (main foodOnPath).1.snake.Body.length + 1 ∧
      g1.snake.GrowCounter = 1 :=
  ⟨_, _, rfl, by decide, by decide, by decide, rfl, by decide, rfl⟩

/-- C13, amended: over a run of consecutive frames that starts in a reachable
state, contains no restart and has exactly `k` frames that consume the food,
body length plus `GrowCounter` at the end equals body length plus
`GrowCounter` at the start plus `k`; so the body length itself rises by
exactly `k` whenever `GrowCounter` is the same at both ends. -/
theorem C13_length_per_meal (inps : List Input) (g : Game) (r : Rng) (g1 : Game) (r1 : Rng)
    (k : Nat) (h : Reachable g r) (hrun : runUpdates inps g r = some (g1, r1))
    (hnr : countRestarts inps g r = 0) (hk : countMeals inps g r = k) :
    Reachable g1 r1 ∧
    (g1.snake.Body.length : Int) + g1.snake.GrowCounter =
      (g.snake.Body.length : Int) + g.snake.GrowCounter + (k : Int) ∧
    (g1.snake.GrowCounter = g.snake.GrowCounter →
      g1.snake.Body.length = g.snake.Body.length + k) := by
  have hsum := run_growth inps g r g1 r1 h hrun hnr
  rw [hk] at hsum
  refine ⟨Reachable_runUpdates inps g r g1 r1 h hrun, hsum, ?_⟩
  intro hsame
  rw [hsame] at hsum
  omega

/-- C13 amended, over the first nineteen frames of the game whose foods lie on
the path of the snake: two meals, and the body has grown from one cell to two
with one more cell pending. -/
theorem C13_length_per_meal_witness :
    ∃ (g1 : Game) (r1 : Rng),
      runUpdates (List.replicate 19 noKeys) (main foodOnPath).1 (main foodOnPath).2
        = some (g1, r1) ∧
      countRestarts (List.replicate 19 noKeys) (main foodOnPath).1 (main foodOnPath).2 = 0 ∧
      countMeals (List.replicate 19 noKeys) (main foodOnPath).1 (main foodOnPath).2 = 2 ∧
      (g1.snake.Body.length : Int) + g1.snake.GrowCounter =
        ((main foodOnPath).1.snake.Body.length : Int) + (main foodOnPath).1.snake.GrowCounter
          + (2 : Nat) := by
  have hrun : runUpdates (List.replicate 19 noKeys) (main foodOnPath).1 (main foodOnPath).2
      = some (_, _) := rfl
  exact ⟨_, _, hrun, by decide, by decide,
    (C13_length_per_meal (List.replicate 19 noKeys) _ _ _ _ 2 (Reachable.start foodOnPath)
      hrun (by decide) (by decide)).2.1⟩

/-- C14: in a running game whose snake has a body, take a due frame (one that
performs the simulation step) whose moved head is inside the grid and not on
a cell behind it.  When the moved head is on the food, the returned state has
`GrowCounter = 1`, its food is the second of the two foods drawn (the third
and fourth draws from the source, the last draw wins), and its speed is one
less than before when that was above 2 and still 2 when it was 2.  When the
moved head is not on the food, score, food and speed are unchanged. -/
theorem C14_meal_effects (inp : Input) (g : Game) (r : Rng)
    (hrun : g.gameOver = false) (hbody : g.snake.Body ≠ [])
    (hstep : ¬ (g.updateCounter + 1 < g.speed)) :
    ∃ (s : Snake) (head : Point) (rest : List Point) (g1 : Game) (r1 : Rng),
      g.snake.Move = some s ∧ s.Body = head :: rest ∧
      Update inp g r = some (g1, r1) ∧
      (¬ ((head.X < 0 ∨ head.Y < 0 ∨ head.X ≥ 64 ∨ head.Y ≥ 48) ∨ head ∈ rest) →
        (head = g.food.Position →
          g1.snake.GrowCounter = 1 ∧
          g1.food = (NewFood (NewFood r).2).1 ∧
          g1.food.Position = { X := r.draws (r.calls + 2) 64,
                               Y := r.draws (r.calls + 3) 48 } ∧
          (g.speed > 2 → g1.speed = g.speed - 1) ∧
          (g.speed = 2 → g1.speed = 2)) ∧
        (head ≠ g.food.Position →
          g1.score = g.score ∧ g1.food = g.food ∧ g1.speed = g.speed)) := by
  obtain ⟨s, head, rest, g1, r1, hm, hb, -, -, -, hupd, -, -, -, -, -, hfood, hnofood⟩ :=
    Update_step_fields inp g r hrun hbody hstep
  refine ⟨s, head, rest, g1, r1, hm, hb, hupd, ?_⟩
  intro hno
  rw [← offGrid_iff] at hno
  refine ⟨?_, ?_⟩
  · intro hf
    obtain ⟨-, hg1, hfd, -, hsp⟩ := hfood hf
    rw [if_neg hno] at hsp
    refine ⟨hg1, hfd, ?_, ?_, ?_⟩
    · rw [hfd, NewFood_eq, NewFood_eq]
    · intro hgt
      rw [hsp, if_pos hgt]
    · intro h2
      rw [hsp, h2]
      decide
  · intro hf
    obtain ⟨hsc, -, hfd, -, hsp⟩ := hnofood hf
    rw [if_neg hno] at hsp
    exact ⟨hsc, hfd, hsp⟩

/-- C14, at a three-cell snake whose next cell holds the food: after the frame
`GrowCounter = 1`, the speed has gone from 8 to 7 and the food is where the
third and fourth draws put it. -/
theorem C14_meal_effects_witness :
    beforeMeal.gameOver = false ∧ beforeMeal.snake.Body ≠ [] ∧
      ¬ (beforeMeal.updateCounter + 1 < beforeMeal.speed) ∧
      ∃ (g1 : Game) (r1 : Rng), Update noKeys beforeMeal foodOnPath = some (g1, r1) ∧
        g1.snake.GrowCounter = 1 ∧ g1.speed = 7 ∧
        g1.food.Position = { X := 34, Y := 24 } := by
  refine ⟨by decide, by decide, by decide, ?_⟩
  obtain ⟨s, head, rest, g1, r1, hm, hb, hupd, hfree⟩ :=
    C14_meal_effects noKeys beforeMeal foodOnPath (by decide) (by decide) (by decide)
  have hs : s = { Body := [{ X := 11, Y := 7 }, { X := 10, Y := 7 }, { X := 9, Y := 7 }],
                  Direction := { X := 1, Y := 0 }, GrowCounter := 0 } := by
    have hm2 : beforeMeal.snake.Move
        = some { Body := [{ X := 11, Y := 7 }, { X := 10, Y := 7 }, { X := 9, Y := 7 }],
                 Direction := { X := 1, Y := 0 }, GrowCounter := 0 } := by decide
    rw [hm2] at hm
    exact (Option.some.inj hm).symm
  rw [hs] at hb
  simp only [List.cons.injEq] at hb
  obtain ⟨hhead, hrest⟩ := hb
  subst hhead
  subst hrest
  obtain ⟨hg1, -, hpos, hsp, -⟩ := (hfree (by decide)).1 (by decide)
  exact ⟨g1, r1, hupd, hg1, by rw [hsp (by decide)]; decide, by rw [hpos]; decide⟩

/-- C15: when every draw of the random source for a positive bound `n` lies in
`[0, n)`, the food of every reachable state (the first food, the food after a
meal, the food after a restart) satisfies `0 <= X < 64` and `0 <= Y < 48`. -/
theorem C15_food_in_grid (g : Game) (r : Rng) (h : Reachable g r)
    (hdraws : ∀ (k : Nat) (n : Int), 0 < n → 0 ≤ r.draws k n ∧ r.draws k n < n) :
    0 ≤ g.food.Position.X ∧ g.food.Position.X < 64 ∧
      0 ≤ g.food.Position.Y ∧ g.food.Position.Y < 48 :=
  Reachable_food g r h hdraws

/-- C15, at the state nine frames after the start with the source whose draws
are all 0. -/
theorem C15_food_in_grid_witness :
    ∃ (g : Game) (r : Rng),
      runUpdates (List.replicate 9 noKeys) (main zeroRng).1 (main zeroRng).2 = some (g, r) ∧
      Reachable g r ∧
      (∀ (k : Nat) (n : Int), 0 < n → 0 ≤ r.draws k n ∧ r.draws k n < n) ∧
      0 ≤ g.food.Position.X ∧ g.food.Position.X < 64 ∧
      0 ≤ g.food.Position.Y ∧ g.food.Position.Y < 48 := by
  have hrun : runUpdates (List.replicate 9 noKeys) (main zeroRng).1 (main zeroRng).2
      = some (_, _) := rfl
  have hreach := Reachable_runUpdates (List.replicate 9 noKeys) _ _ _ _
    (Reachable.start zeroRng) hrun
  have hdraws : ∀ (k : Nat) (n : Int), 0 < n →
      0 ≤ zeroRng.draws k n ∧ zeroRng.draws k n < n := fun _ _ hn => ⟨le_refl 0, hn⟩
  exact ⟨_, _, hrun, hreach, hdraws, C15_food_in_grid _ _ hreach hdraws⟩

/-- C16: in every reachable state the direction is one of (1,0), (-1,0), (0,1),
(0,-1), that is, exactly one of its components is nonzero and that one is 1 or
-1; and the direction the key chain latches from it, for any held keys, is
again one of the four. -/
theorem C16_unit_direction (g : Game) (r : Rng) (h : Reachable g r) :
    (g.snake.Direction = { X := 1, Y := 0 } ∨ g.snake.Direction = { X := -1, Y := 0 } ∨
      g.snake.Direction = { X := 0, Y := 1 } ∨ g.snake.Direction = { X := 0, Y := -1 }) ∧
    ((g.snake.Direction.X ≠ 0 ∧ g.snake.Direction.Y = 0 ∧ g.snake.Direction.X.natAbs = 1) ∨
      (g.snake.Direction.X = 0 ∧ g.snake.Direction.Y ≠ 0 ∧
        g.snake.Direction.Y.natAbs = 1)) ∧
    (∀ inp : Input,
      latch inp g.snake.Direction = { X := 1, Y := 0 } ∨
      latch inp g.snake.Direction = { X := -1, Y := 0 } ∨
      latch inp g.snake.Direction = { X := 0, Y := 1 } ∨
      latch inp g.snake.Direction = { X := 0, Y := -1 }) := by
  have hd := Reachable_direction g r h
  refine ⟨hd, ?_, fun inp => (latch_unit inp g.snake.Direction hd).1⟩
  rcases hd with hd | hd | hd | hd <;> rw [hd] <;> decide

/-- C16, at the state after the 58 frames `loopFrames`: the snake heads up. -/
theorem C16_unit_direction_witness :
    ∃ (g : Game) (r : Rng),
      runUpdates loopFrames (main foodOnPath).1 (main foodOnPath).2 = some (g, r) ∧
      Reachable g r ∧ g.snake.Direction = { X := 0, Y := -1 } ∧
      (g.snake.Direction = { X := 1, Y := 0 } ∨ g.snake.Direction = { X := -1, Y := 0 } ∨
        g.snake.Direction = { X := 0, Y := 1 } ∨ g.snake.Direction = { X := 0, Y := -1 }) := by
  have hrun : runUpdates loopFrames (main foodOnPath).1 (main foodOnPath).2
      = some (_, _) := rfl
  have hreach := Reachable_runUpdates loopFrames _ _ _ _ (Reachable.start foodOnPath) hrun
  exact ⟨_, _, hrun, hreach, rfl, (C16_unit_direction _ _ hreach).1⟩

/-- C17 fails as stated: the state after the 58 frames `loopFrames` and one
more frame is reachable and finished, and its body holds the cell (36,24)
twice: the head has moved onto the last cell of the body. -/
theorem C17_bitten_body_repeats_a_cell :
    ∃ (g : Game) (r : Rng),
      runUpdates (loopFrames ++ [noKeys]) (main foodOnPath).1 (main foodOnPath).2
        = some (g, r) ∧
      Reachable g r ∧ g.gameOver = true ∧
      g.snake.Body = [{ X := 36, Y := 24 }, { X := 36, Y := 25 }, { X := 37, Y := 25 },
                      { X := 37, Y := 24 }, { X := 36, Y := 24 }] ∧
      ¬ g.snake.Body.Nodup := by
  have hrun : runUpdates (loopFrames ++ [noKeys]) (main foodOnPath).1 (main foodOnPath).2
      = some (_, _) := rfl
  exact ⟨_, _, hrun,
    Reachable_runUpdates (loopFrames ++ [noKeys]) _ _ _ _ (Reachable.start foodOnPath) hrun,
    rfl, rfl, by decide⟩

/-- C17, amended: in every reachable state (running or finished) the body is
non-empty and the cells behind the head (`Body[1:]`) are pairwise distinct; in
every reachable running state all cells of the body are pairwise distinct. -/
theorem C17_body_distinct (g : Game) (r : Rng) (h : Reachable g r) :
    g.snake.Body ≠ [] ∧ g.snake.Body.tail.Nodup ∧
      (g.gameOver = false → g.snake.Body.Nodup) := by
  obtain ⟨hne, htail, hrunning⟩ := Reachable_body g r h
  exact ⟨hne, htail, fun hrun => (hrunning hrun).1⟩

/-- C17 amended, at the finished state whose body repeats a cell: the cells
behind the head are distinct. -/
theorem C17_body_distinct_witness :
    ∃ (g : Game) (r : Rng),
      runUpdates (loopFrames ++ [noKeys]) (main foodOnPath).1 (main foodOnPath).2
        = some (g, r) ∧
      Reachable g r ∧ g.snake.Body.length = 5 ∧ g.snake.Body.tail.Nodup := by
  have hrun : runUpdates (loopFrames ++ [noKeys]) (main foodOnPath).1 (main foodOnPath).2
      = some (_, _) := rfl
  have hreach := Reachable_runUpdates (loopFrames ++ [noKeys]) _ _ _ _
    (Reachable.start foodOnPath) hrun
  exact ⟨_, _, hrun, hreach, rfl, (C17_body_distinct _ _ hreach).2.1⟩

/-- C18: in every reachable state with `gameOver = false`, every cell of the
body lies inside the grid (`0 <= X < 64`, `0 <= Y < 48`) and the cells of the
body are pairwise distinct. -/
theorem C18_running_body_in_grid (g : Game) (r : Rng) (h : Reachable g r)
    (hrun : g.gameOver = false) :
    (∀ p ∈ g.snake.Body, 0 ≤ p.X ∧ p.X < 64 ∧ 0 ≤ p.Y ∧ p.Y < 48) ∧
      g.snake.Body.Nodup := by
  obtain ⟨hnd, hgrid⟩ := (Reachable_body g r h).2.2 hrun
  exact ⟨hgrid, hnd⟩

/-- C18, at the running state after the 58 frames `loopFrames` (a five-cell
snake). -/
theorem C18_running_body_in_grid_witness :
    ∃ (g : Game) (r : Rng),
      runUpdates loopFrames (main foodOnPath).1 (main foodOnPath).2 = some (g, r) ∧
      Reachable g r ∧ g.gameOver = false ∧ g.snake.Body.length = 5 ∧
      (∀ p ∈ g.snake.Body, 0 ≤ p.X ∧ p.X < 64 ∧ 0 ≤ p.Y ∧ p.Y < 48) ∧
      g.snake.Body.Nodup := by
  have hrun : runUpdates loopFrames (main foodOnPath).1 (main foodOnPath).2
      = some (_, _) := rfl
  have hreach := Reachable_runUpdates loopFrames _ _ _ _ (Reachable.start foodOnPath) hrun
  exact ⟨_, _, hrun, hreach, rfl, rfl, C18_running_body_in_grid _ _ hreach rfl⟩

/-- C19: in every reachable state `GrowCounter` is 0 or 1 and
`score = 2 * (len(Body) + GrowCounter - 1)`, so the score is even; and over any
run without restarts that starts there, body length plus `GrowCounter` rises
by the number of frames that consume the food and the score by twice that
number, so that from a fresh snake (after `main` or a restart) body length
plus pending growth is 1 plus the number of foods eaten. -/
theorem C19_score_is_twice_growth (g : Game) (r : Rng) (h : Reachable g r) :
    (g.snake.GrowCounter = 0 ∨ g.snake.GrowCounter = 1) ∧
    g.score = 2 * ((g.snake.Body.length : Int) + g.snake.GrowCounter - 1) ∧
    (∃ k : Int, g.score = 2 * k) ∧
    (∀ (inps : List Input) (g1 : Game) (r1 : Rng),
      runUpdates inps g r = some (g1, r1) → countRestarts inps g r = 0 →
      (g1.snake.Body.length : Int) + g1.snake.GrowCounter =
        (g.snake.Body.length : Int) + g.snake.GrowCounter + (countMeals inps g r : Int) ∧
      g1.score = g.score + 2 * (countMeals inps g r : Int) ∧
      (g.snake = NewSnake →
        (g1.snake.Body.length : Int) + g1.snake.GrowCounter
          = 1 + (countMeals inps g r : Int))) := by
  obtain ⟨hg01, hscore⟩ := Reachable_score g r h
  refine ⟨hg01, hscore, ⟨_, hscore⟩, ?_⟩
  intro inps g1 r1 hrun hnr
  have hsum := run_growth inps g r g1 r1 h hrun hnr
  refine ⟨hsum, run_score inps g r g1 r1 h hrun hnr, ?_⟩
  intro hfresh
  have hlen : (g.snake.Body.length : Int) + g.snake.GrowCounter = 1 := by
    rw [hfresh, NewSnake_eq]
    decide
  omega

/-- C19, at the finished state after `loopFrames` and one more frame: five
cells, one pending, score 10. -/
theorem C19_score_is_twice_growth_witness :
    ∃ (g : Game) (r : Rng),
      runUpdates (loopFrames ++ [noKeys]) (main foodOnPath).1 (main foodOnPath).2
        = some (g, r) ∧
      Reachable g r ∧ g.snake.Body.length = 5 ∧ g.snake.GrowCounter = 1 ∧ g.score = 10 ∧
      g.score = 2 * ((g.snake.Body.length : Int) + g.snake.GrowCounter - 1) := by
  have hrun : runUpdates (loopFrames ++ [noKeys]) (main foodOnPath).1 (main foodOnPath).2
      = some (_, _) := rfl
  have hreach := Reachable_runUpdates (loopFrames ++ [noKeys]) _ _ _ _
    (Reachable.start foodOnPath) hrun
  exact ⟨_, _, hrun, hreach, rfl, rfl, rfl, (C19_score_is_twice_growth _ _ hreach).2.1⟩

/-- C20: in every reachable state with `gameOver = true`, `updateCounter = 0`.
Hence a frame with `R` just pressed returns a running state with
`updateCounter = 0`, although `restart` returns the `updateCounter` it was
given; the next nine frames only count, whatever keys are held, and the tenth
frame is the first simulation step: it moves the snake to (33,24). -/
theorem C20_finished_counter_zero (g : Game) (r : Rng) (h : Reachable g r)
    (hover : g.gameOver = true) :
    g.updateCounter = 0 ∧
    (restart g r).1.updateCounter = g.updateCounter ∧
    (∀ inp : Input, inp.keyR = true →
      ∃ (g1 : Game) (r1 : Rng), Update inp g r = some (g1, r1) ∧
        g1.gameOver = false ∧ g1.updateCounter = 0 ∧
        g1.snake.Body = [{ X := 32, Y := 24 }] ∧
        ∀ (inps : List Input) (inp10 : Input), inps.length = 9 →
          runUpdates inps g1 r1 = some ({ g1 with updateCounter := 9 }, r1) ∧
          ∃ (g10 : Game) (r10 : Rng),
            Update inp10 { g1 with updateCounter := 9 } r1 = some (g10, r10) ∧
            g10.snake.Body = [{ X := 33, Y := 24 }] ∧ g10.updateCounter = 0) := by
  have hzero := Reachable_over_counter g r h hover
  refine ⟨hzero, rfl, ?_⟩
  intro inp hR
  have hupd : Update inp g r = some ((restart g r).1, (restart g r).2) := by
    rw [Update_over inp g r hover, if_pos hR]
  have hcount : (restart g r).1.updateCounter = 0 := hzero
  have hbody : (restart g r).1.snake.Body = [{ X := 32, Y := 24 }] := by
    show NewSnake.Body = _
    rw [NewSnake_eq]
  refine ⟨_, _, hupd, rfl, hcount, hbody, ?_⟩
  intro inps inp10 hlen
  have hspeed : (restart g r).1.speed = 10 := rfl
  refine ⟨?_, ?_⟩
  · have hw := runUpdates_wait inps (restart g r).1 (restart g r).2 rfl
      (by rw [hlen, hspeed, hcount]; decide)
    rw [hw, hlen, hcount]
    rfl
  · exact first_step_of_fresh inp10 { (restart g r).1 with updateCounter := 9 }
      (restart g r).2 rfl rfl rfl rfl

/-- C20, at the finished state after `loopFrames` and one more frame. -/
theorem C20_finished_counter_zero_witness :
    ∃ (g : Game) (r : Rng),
      runUpdates (loopFrames ++ [noKeys]) (main foodOnPath).1 (main foodOnPath).2
        = some (g, r) ∧
      Reachable g r ∧ g.gameOver = true ∧ g.updateCounter = 0 := by
  have hrun : runUpdates (loopFrames ++ [noKeys]) (main foodOnPath).1 (main foodOnPath).2
      = some (_, _) := rfl
  have hreach := Reachable_runUpdates (loopFrames ++ [noKeys]) _ _ _ _
    (Reachable.start foodOnPath) hrun
  exact ⟨_, _, hrun, hreach, rfl, (C20_finished_counter_zero _ _ hreach rfl).1⟩

end SnakeGame
